import Mathlib

/-!
# Verification of the Dawn-upgrade analysis scripts

A shallow embedding, in Lean 4, of the pure core of the Python analysis
scripts in this repository:

* `.upgrade-analysis/scripts/analyze-all-json-diffs.py`
  (`load_json`, `analyze_settings_schema`, `analyze_locale`,
  `analyze_settings_data`),
* `.upgrade-analysis/scripts/categorize-changes.py`
  (`parse_file_changes`, `categorize_files` and the list/validation
  logic of `main`),
* `.upgrade-analysis/scripts/generate-all-diffs.py` and
  `scripts/extract-dawn-files.py` (exit-status behaviour of their
  module-level guards).

Python values appearing in those scripts are modelled by the `Json` type
below; Python `dict`s are modelled as insertion-ordered association
lists with unique keys (updating an existing key keeps its original
position, as CPython does).  Code that can raise a runtime exception
(`AttributeError`/`TypeError` on malformed input) is modelled in the
`Option` monad, `none` meaning "the Python call raises".

External collaborators (the `json` module's parser, the `deepdiff`
library, and the iteration order of `dict.keys() & dict.keys()` set
intersections, which depends on CPython's randomized string hashing) are
passed in as explicit parameters, as the spec treats them as given
capabilities or runtime details.
-/

namespace DawnUpgrade

mutual

/-- A JSON/Python value as produced by `json.loads` in the scripts.
Numbers are modelled as integers (no claim involves floats), and
Python's cross-type numeric equality (`True == 1`) is not modelled. -/
inductive Json where
  | null : Json
  | bool (b : Bool) : Json
  | num (n : Int) : Json
  | str (s : String) : Json
  | arr (elems : JsonList) : Json
  | obj (fields : JsonFields) : Json
deriving DecidableEq, Repr

/-- A list of JSON values (the payload of `Json.arr`). -/
inductive JsonList where
  | nil : JsonList
  | cons (hd : Json) (tl : JsonList) : JsonList
deriving DecidableEq, Repr

/-- The key-value pairs of a JSON object (the payload of `Json.obj`),
in insertion order. -/
inductive JsonFields where
  | nil : JsonFields
  | cons (key : String) (val : Json) (tl : JsonFields) : JsonFields
deriving DecidableEq, Repr

end

instance : Inhabited Json := ⟨Json.null⟩

/-- View a `JsonList` as an ordinary `List`. -/
def JsonList.toList : JsonList → List Json
  | .nil => []
  | .cons x t => x :: t.toList

/-- View the fields of a JSON object as an ordinary association list. -/
def JsonFields.toList : JsonFields → List (String × Json)
  | .nil => []
  | .cons k v t => (k, v) :: t.toList

/-- Build a `JsonList` from an ordinary list (for writing inputs). -/
def JsonList.ofList : List Json → JsonList
  | [] => .nil
  | x :: t => .cons x (JsonList.ofList t)

/-- Build object fields from an ordinary association list. -/
def JsonFields.ofList : List (String × Json) → JsonFields
  | [] => .nil
  | (k, v) :: t => .cons k v (JsonFields.ofList t)

/-- Convenience constructor: a JSON array from a `List`. -/
def Json.arrOf (l : List Json) : Json := .arr (JsonList.ofList l)

/-- Convenience constructor: a JSON object from an association list. -/
def Json.objOf (l : List (String × Json)) : Json := .obj (JsonFields.ofList l)

/-- A Python `dict` with string keys, as the scripts use for parsed JSON
documents, settings entries, sections and output records: an
insertion-ordered association list. -/
abbrev JObj := List (String × Json)

/-- `d.get(k)`: `None` when the key is absent. -/
def pyGet (d : JObj) (k : String) : Json :=
  (d.lookup k).getD Json.null

/-- `d.get(k, default)`: the default is used only when the key is absent
(a key bound to a falsy value is returned, not replaced). -/
def pyGetD (d : JObj) (k : String) (dflt : Json) : Json :=
  (d.lookup k).getD dflt

/-- Python truthiness of a JSON value (e.g. `if setting.get('id'):`). -/
def Json.truthy : Json → Bool
  | .null => false
  | .bool b => b
  | .num n => n != 0
  | .str s => !s.isEmpty
  | .arr l => !(l matches .nil)
  | .obj f => !(f matches .nil)

/-- Whether a value can be used as a `dict` key without raising
`TypeError: unhashable type` (lists and dicts cannot). -/
def Json.hashable : Json → Bool
  | .arr _ => false
  | .obj _ => false
  | _ => true

mutual

/-- Python `repr()` of a JSON value, as used when a non-string value is
interpolated inside a container.  Escaping of quotes and backslashes
inside string reprs is not modelled (no claim depends on it). -/
def Json.pyRepr : Json → String
  | .null => "None"
  | .bool b => if b then "True" else "False"
  | .num n => toString n
  | .str s => "\x27" ++ s ++ "\x27"
  | .arr l => "[" ++ JsonList.pyReprElems l ++ "]"
  | .obj f => "\x7b" ++ JsonFields.pyReprFields f ++ "\x7d"

/-- Comma-separated reprs of array elements. -/
def JsonList.pyReprElems : JsonList → String
  | .nil => ""
  | .cons x .nil => x.pyRepr
  | .cons x (.cons y t) => x.pyRepr ++ ", " ++ JsonList.pyReprElems (.cons y t)

/-- Comma-separated reprs of object fields. -/
def JsonFields.pyReprFields : JsonFields → String
  | .nil => ""
  | .cons k v .nil => "\x27" ++ k ++ "\x27: " ++ v.pyRepr
  | .cons k v (.cons k2 v2 t) =>
    "\x27" ++ k ++ "\x27: " ++ v.pyRepr ++ ", " ++
      JsonFields.pyReprFields (.cons k2 v2 t)

end

/-- Python `str()` of a JSON value, as used by f-string interpolation in
the scripts (`str` of a string is the string itself; containers and the
rest print as their repr). -/
def Json.pyStr : Json → String
  | .str s => s
  | j => j.pyRepr

/-! ## String utilities

Character-list models of the Python string and `re` operations used by
`categorize-changes.py` and `load_json`.  Strings are manipulated as
their underlying `List Char` (Python indexes strings by code point, as
`List Char` does); all functions are structurally recursive, so concrete
runs evaluate inside the kernel. -/

/-- A character stripped by Python `str.strip()` (the ASCII whitespace
class; other Unicode whitespace does not appear in these inputs). -/
def isPySpace (c : Char) : Bool :=
  c == ' ' || c == '\t' || c == '\n' || c == '\r' || c == '\x0b' || c == '\x0c'

/-- Python `str.strip()` on a character list. -/
def pyStripList (l : List Char) : List Char :=
  ((l.dropWhile isPySpace).reverse.dropWhile isPySpace).reverse

/-- Python `str.strip()`. -/
def pyStrip (s : String) : String := String.mk (pyStripList s.data)

/-- Emptiness test (`if not line:` after a strip, or `if content:`). -/
def pyIsEmpty (s : String) : Bool := s.data.isEmpty

/-- Python `s[0]` (only ever applied to non-empty strings). -/
def pyFront (s : String) : Char := s.data.headD ' '

/-- Python `s[n:]`. -/
def pyDrop (s : String) (n : Nat) : String := String.mk (s.data.drop n)

/-- Python `s.startswith(pre)`. -/
def pyStartsWith (s pre : String) : Bool := pre.data.isPrefixOf s.data

/-- Split a character list at every occurrence of a separator
character. -/
def splitOnChar (sep : Char) : List Char → List (List Char)
  | [] => [[]]
  | c :: t =>
    match splitOnChar sep t with
    | [] => [[c]]
    | cur :: rest => if c == sep then [] :: cur :: rest else (c :: cur) :: rest

/-- Python `haystack.find(needle)`: index of the first occurrence, with
`none` playing the role of `-1`. -/
def findSub : List Char → List Char → Option Nat
  | [], pat => if pat.isEmpty then some 0 else none
  | c :: t, pat =>
    if pat.isPrefixOf (c :: t) then some 0 else (findSub t pat).map (· + 1)

/-- The `re.MULTILINE` search at categorize-changes.py line 208, first
alternative: some line contains `diff --git` followed, later in the same
line, by the (escaped, hence literal) file path. -/
def lineMentionsGitHeader (line filepath : String) : Bool :=
  match findSub line.data "diff --git".data with
  | none => false
  | some i => (findSub (line.data.drop (i + 10)) filepath.data).isSome

/-- The full `re.MULTILINE` search at categorize-changes.py line 208:
`diff --git.*<path>|^--- a/<path>|^\+\+\+ b/<path>` over the whole diff
text (`^` matches at each line start under `re.MULTILINE`; `.` does not
cross newlines). -/
def fileMentionedInDiff (content filepath : String) : Bool :=
  (splitOnChar '\n' content.data).any fun line =>
    lineMentionsGitHeader (String.mk line) filepath ||
    ("--- a/" ++ filepath).data.isPrefixOf line ||
    ("+++ b/" ++ filepath).data.isPrefixOf line

/-- Smallest number of characters to skip until the remaining text
begins with `diff --git` (the lazy extension up to the lookahead
`(?=diff --git|\Z)`); the whole length if no such occurrence exists. -/
def extendLen : List Char → Nat
  | [] => 0
  | c :: t => if "diff --git".data.isPrefixOf (c :: t) then 0 else 1 + extendLen t

/-- The `re.DOTALL` search at categorize-changes.py line 210:
`(diff --git.*?<path>.*?)(?=diff --git|\Z)`.  The leftmost-lazy match
starts at the first occurrence of `diff --git` that is followed, anywhere
later in the text, by the path; runs through the first such occurrence of
the path; and extends minimally until the next `diff --git` or the end of
the text.  Returns the captured group. -/
def diffSectionAux (filepath : List Char) : List Char → Option (List Char)
  | [] => none
  | c :: t =>
    if "diff --git".data.isPrefixOf (c :: t) then
      match findSub ((c :: t).drop 10) filepath with
      | some j =>
        let m := 10 + j + filepath.length
        some ((c :: t).take (m + extendLen ((c :: t).drop m)))
      | none => diffSectionAux filepath t
    else diffSectionAux filepath t

/-- The captured diff section for a path, on `String`s. -/
def diffSection (content filepath : String) : Option (List Char) :=
  diffSectionAux filepath.data content.data

/-- Scanner for the `re.MULTILINE` search `^\+[^+]` at
categorize-changes.py line 214: a line starts with `+` followed by a
character other than `+` (the following character may be the newline
itself).  The flag records whether the scanner sits at a line start. -/
def hasAddedLineAux : Bool → List Char → Bool
  | _, [] => false
  | atStart, c :: rest =>
    if atStart && c == '+' then
      match rest with
      | [] => false
      | c2 :: _ => if c2 != '+' then true else hasAddedLineAux false rest
    else hasAddedLineAux (c == '\n') rest

/-- Whether a diff section contains an added line (`^\+[^+]`). -/
def hasAddedLine (l : List Char) : Bool := hasAddedLineAux true l

/-! ## categorize-changes.py: `parse_file_changes` (lines 19-43) -/

/-- The three buckets produced by `parse_file_changes`. -/
structure FileChanges where
  added : List String
  modified : List String
  deleted : List String
deriving Repr, DecidableEq

/-- The loop body of `parse_file_changes` (lines 28-41), acting on one
raw line of `file-changes.txt`. -/
def parseFileChangesLine (acc : FileChanges) (rawLine : String) : FileChanges :=
  let line := pyStrip rawLine
  if pyIsEmpty line then acc
  else
    let status := pyFront line
    let path := pyStrip (pyDrop line 2)
    if status = 'A' then { acc with added := acc.added ++ [path] }
    else if status = 'M' then { acc with modified := acc.modified ++ [path] }
    else if status = 'D' then { acc with deleted := acc.deleted ++ [path] }
    else acc

/-- `parse_file_changes`, over the list of raw lines of the input file. -/
def parse_file_changes (lines : List String) : FileChanges :=
  lines.foldl parseFileChangesLine ⟨[], [], []⟩

/-- Modelled from the spec of claim C10, for the refinement theorem:
the paths of the lines whose stripped form is non-empty and begins with
the given status character, in input order. -/
def statusPaths (c : Char) : List String → List String
  | [] => []
  | l :: ls =>
    let t := pyStrip l
    if ¬pyIsEmpty t ∧ pyFront t = c then pyStrip (pyDrop t 2) :: statusPaths c ls
    else statusPaths c ls

/-! ## categorize-changes.py: `categorize_files` (lines 99-239)

The added-file bucketing (lines 113-142, `custom_files`) is not
modelled: no claim concerns it.  The `changes` and `integration_points`
fields of a modified-file record (filled in later by `main` from
`parse_diff_patch`) are likewise omitted. -/

/-- The fixed dev/config prefix list (lines 184-187). -/
def dev_config_files : List String :=
  [".github/", ".gitignore", ".prettierrc.json", ".theme-check.yml",
   ".vscode/", "LICENSE.md", "release-notes.md", "translation.yml"]

/-- The loop at lines 196-200: `filepath.startswith(pattern) or filepath
== pattern` against the dev/config list. -/
def isDevConfig (filepath : String) : Bool :=
  dev_config_files.any fun pat => pyStartsWith filepath pat || filepath == pat

/-- The comparison labels of lines 117-122 / 156-162 / 218-224: which of
the three (optional) diff sets list this path under the selected change
kind.  A missing diff set is `none` (Python: an empty/falsy dict). -/
def labelsFor (sel : FileChanges → List String) (ds1 ds2 ds3 : Option FileChanges)
    (p : String) : List String :=
  (match ds1 with
   | some d => if (sel d).contains p then ["v10_upstream_vs_v10_custom"] else []
   | none => []) ++
  (match ds2 with
   | some d => if (sel d).contains p then ["v10_custom_vs_v15_upstream"] else []
   | none => []) ++
  (match ds3 with
   | some d => if (sel d).contains p then ["v10_upstream_vs_v15_upstream"] else []
   | none => [])

/-- `comparisons if comparisons else ["v10_upstream_vs_v10_custom"]`
(lines 128, 178, 232). -/
def comparisonsOrDefault (cs : List String) : List String :=
  if cs.isEmpty then ["v10_upstream_vs_v10_custom"] else cs

/-- The record stored in `modified_dawn_files` (lines 172-179), without
the `changes`/`integration_points` fields (see above). -/
structure ModifiedInfo where
  path : String
  revert_to_clean : Bool
  reason : Option String
  comparisons : List String
deriving Repr, DecidableEq

/-- The revert rule of lines 149-153: non-`en.` locale paths and the
literal `README.md`. -/
def revertCondition (filepath : String) : Bool :=
  (pyStartsWith filepath "locales/" && !pyStartsWith filepath "locales/en.") ||
    filepath == "README.md"

/-- The reason strings of lines 165-170. -/
def revertReason (filepath : String) : Option String :=
  if revertCondition filepath then
    if filepath == "README.md" then
      some "Accept Dawn 15.4.0 version (revert our customizations)"
    else some "Non-English locale - custom features only support English"
  else none

/-- One modified-file record (lines 148-179). -/
def mkModifiedInfo (ds1 ds2 ds3 : Option FileChanges) (p : String) : ModifiedInfo :=
  { path := p
    revert_to_clean := revertCondition p
    reason := revertReason p
    comparisons := comparisonsOrDefault (labelsFor (·.modified) ds1 ds2 ds3 p) }

/-- CPython `dict` assignment `d[k] = v`: an existing key keeps its
original position and gets the new value; a new key is appended. -/
def dinsertInfo (d : List (String × ModifiedInfo)) (k : String) (v : ModifiedInfo) :
    List (String × ModifiedInfo) :=
  if d.any (fun q => q.1 == k) then d.map (fun q => if q.1 == k then (k, v) else q)
  else d ++ [(k, v)]

/-- The `modified_dawn_files` dict built by the loop at lines 148-179. -/
def buildModified (ds1 ds2 ds3 : Option FileChanges) (modified : List String) :
    List (String × ModifiedInfo) :=
  modified.foldl (fun acc p => dinsertInfo acc p (mkModifiedInfo ds1 ds2 ds3 p)) []

/-- A record appended to `removed_dawn_files` (lines 226-233). -/
structure RemovedInfo where
  path : String
  should_restore : Bool
  accept_dawn_15_4 : Bool
  has_customizations : Bool
  description : String
  comparisons : List String
deriving Repr, DecidableEq

/-- The customization scan of lines 202-215 for a deleted dev/config
path: mentioned in the raw diff, and the captured (leftmost-lazy) diff
section contains an added line. -/
def hasCustomizations (isDev : Bool) (full_diff_content : String) (filepath : String) : Bool :=
  if isDev && !pyIsEmpty full_diff_content then
    if fileMentionedInDiff full_diff_content filepath then
      match diffSection full_diff_content filepath with
      | some sec => hasAddedLine sec
      | none => false
    else false
  else false

/-- One removed-file record (lines 195-233). -/
def mkRemovedInfo (full_diff_content : String) (ds1 ds2 ds3 : Option FileChanges)
    (p : String) : RemovedInfo :=
  let isDev := isDevConfig p
  let hc := hasCustomizations isDev full_diff_content p
  { path := p
    should_restore := !isDev
    accept_dawn_15_4 := isDev
    has_customizations := if isDev then hc else false
    description :=
      (if isDev then
        "Accept Dawn 15.4.0 version" ++
          (if hc then " (patch with customizations)" else "")
      else "Should restore") ++ " Dawn file: " ++ p
    comparisons := comparisonsOrDefault (labelsFor (·.deleted) ds1 ds2 ds3 p) }

/-- The `removed_dawn_files` list built by the loop at lines 195-233. -/
def buildRemoved (full_diff_content : String) (ds1 ds2 ds3 : Option FileChanges)
    (deleted : List String) : List RemovedInfo :=
  deleted.map (mkRemovedInfo full_diff_content ds1 ds2 ds3)

/-- The output of `categorize_files` relevant to the claims. -/
structure Categorized where
  modified_dawn_files : List (String × ModifiedInfo)
  removed_dawn_files : List RemovedInfo
deriving Repr, DecidableEq

/-- `categorize_files` (lines 99-239).  `full_diff_content` is the text
read from `--full-diff` (empty when the file is absent). -/
def categorize_files (fc : FileChanges) (full_diff_content : String)
    (ds1 ds2 ds3 : Option FileChanges) : Categorized :=
  { modified_dawn_files := buildModified ds1 ds2 ds3 fc.modified
    removed_dawn_files := buildRemoved full_diff_content ds1 ds2 ds3 fc.deleted }

/-! ## categorize-changes.py: the bucket lists and validation of `main`
(lines 321-358) -/

/-- The classifier outputs assembled by `main`: the bucket lists of
lines 321-326, the warning print of lines 333-334, and the
`summary.validation` flags of lines 356-357. -/
structure ClassifyResult where
  categorized : Categorized
  files_to_revert_to_clean : List String
  files_to_patch_modified : List String
  files_to_restore_from_dawn : List String
  files_to_accept_dawn_15_4 : List String
  files_to_patch_with_customizations : List String
  warning_printed : Bool
  validation_modified_ok : Bool
  validation_removed_ok : Bool
deriving Repr, DecidableEq

/-- The list/validation logic of `main` (lines 321-358) applied to the
output of `categorize_files`. -/
def classifyMain (fc : FileChanges) (full_diff_content : String)
    (ds1 ds2 ds3 : Option FileChanges) : ClassifyResult :=
  let categorized := categorize_files fc full_diff_content ds1 ds2 ds3
  let files_to_revert :=
    (categorized.modified_dawn_files.filter fun q => q.2.revert_to_clean).map (·.1)
  let files_to_patch_modified :=
    (categorized.modified_dawn_files.filter fun q => !q.2.revert_to_clean).map (·.1)
  let files_to_restore :=
    (categorized.removed_dawn_files.filter fun f => f.should_restore).map (·.path)
  let files_to_accept :=
    (categorized.removed_dawn_files.filter fun f => f.accept_dawn_15_4).map (·.path)
  let files_to_patch_deleted :=
    (categorized.removed_dawn_files.filter fun f =>
      f.accept_dawn_15_4 && f.has_customizations).map (·.path)
  let total_modified := categorized.modified_dawn_files.length
  { categorized := categorized
    files_to_revert_to_clean := files_to_revert
    files_to_patch_modified := files_to_patch_modified
    files_to_restore_from_dawn := files_to_restore
    files_to_accept_dawn_15_4 := files_to_accept
    files_to_patch_with_customizations := files_to_patch_deleted
    warning_printed :=
      total_modified != files_to_revert.length + files_to_patch_modified.length
    validation_modified_ok :=
      total_modified == files_to_revert.length + files_to_patch_modified.length
    validation_removed_ok :=
      categorized.removed_dawn_files.length ==
        files_to_restore.length + files_to_accept.length }

/-- Python `Path(p).name`: the final path component (used to state what
the spec calls the "filename" of a path). -/
def pathName (p : String) : String :=
  String.mk ((splitOnChar '/' p.data).getLastD p.data)

/-! ## Python value equality

Python `==`/`!=` on parsed JSON values: lists compare element-wise in
order, dicts compare as key-value mappings regardless of field order.
The functions recurse structurally on their first argument (matching a
field removes it from the second object, so Python's unique-key dicts
are modelled exactly). -/

/-- Find a key in object fields and return its value together with the
remaining fields. -/
def extractField (k : String) : JsonFields → Option (Json × JsonFields)
  | .nil => none
  | .cons k2 v t =>
    if k2 == k then some (v, t)
    else (extractField k t).map fun p => (p.1, .cons k2 v p.2)

mutual

/-- Python `==` on JSON values. -/
def Json.pyEq : Json → Json → Bool
  | .null, .null => true
  | .bool a, .bool b => a == b
  | .num a, .num b => a == b
  | .str a, .str b => a == b
  | .arr a, .arr b => JsonList.pyEqList a b
  | .obj a, .obj b => JsonFields.pyEqFields a b
  | _, _ => false

/-- Element-wise `==` on JSON arrays. -/
def JsonList.pyEqList : JsonList → JsonList → Bool
  | .nil, .nil => true
  | .cons a t, .cons b u => a.pyEq b && JsonList.pyEqList t u
  | _, _ => false

/-- Order-insensitive `==` on JSON objects. -/
def JsonFields.pyEqFields : JsonFields → JsonFields → Bool
  | .nil, .nil => true
  | .nil, .cons .. => false
  | .cons k v t, b =>
    match extractField k b with
    | some (w, b2) => v.pyEq w && JsonFields.pyEqFields t b2
    | none => false

end

/-- Python `==` between values held in a `dict` (top level values are
plain `Json`). -/
def pyEqJ (a b : Json) : Bool := a.pyEq b

/-! ## load_json (analyze-all-json-diffs.py lines 17-26,
analyze-json-diff.py lines 19-29)

The `json.loads` parser is an external library capability and is passed
in as a parameter; `none` models a raised `json.JSONDecodeError`. -/

/-- The comment-stripping step of `load_json`: if the content, stripped
of surrounding whitespace, starts with `/*`, everything up to and
including the first `*/` of the original content is discarded and the
remainder stripped; if no `*/` exists the content is left unchanged. -/
def stripLeadingCommentBlock (content : String) : String :=
  if pyStartsWith (pyStrip content) "/*" then
    match findSub content.data "*/".data with
    | some i => pyStrip (String.mk (content.data.drop (i + 2)))
    | none => content
  else content

/-- `load_json`, given the parser and the file content. -/
def load_json (parse : String → Option Json) (content : String) : Option Json :=
  parse (stripLeadingCommentBlock content)

/-! ## Exit-status behaviour (claim C7)

`scripts/version_config.py` raises `FileNotFoundError` when the version
configuration file is missing (lines 16-30); `main` of
generate-all-diffs.py (lines 66-71) and of extract-dawn-files.py
(lines 47-52) catches it and returns `1`, returning `0` otherwise.  The
configuration-load outcome is modelled as an `Option`; everything else
`main` does (running `git` subprocesses) does not affect its return
value. -/

/-- Return value of `main()` in generate-all-diffs.py (lines 58-270). -/
def generateAllDiffsMain (configLoad : Option JObj) : Nat :=
  match configLoad with
  | none => 1
  | some _ => 0

/-- Process exit status of generate-all-diffs.py: the module guard
(lines 273-274) is a bare `main()` call, so the return value is
discarded and the interpreter exits with status 0. -/
def generateAllDiffsExitStatus (configLoad : Option JObj) : Nat :=
  let _ := generateAllDiffsMain configLoad
  0

/-- Return value of `main()` in extract-dawn-files.py (lines 39-96). -/
def extractDawnFilesMain (configLoad : Option JObj) : Nat :=
  match configLoad with
  | none => 1
  | some _ => 0

/-- Process exit status of extract-dawn-files.py: the module guard
(lines 99-100) is `exit(main())`, so main's return value becomes the
process exit status. -/
def extractDawnFilesExitStatus (configLoad : Option JObj) : Nat :=
  extractDawnFilesMain configLoad

/-! ## analyze_locale (analyze-all-json-diffs.py lines 216-288) and
analyze_settings_data (lines 291-366)

Both operate on flat dicts and are total; each single Python loop that
appends to two result lists is modelled as one `filterMap` per result
list over the same iteration. -/

/-- Results of the first comparison of a flat document
(`v10_upstream_vs_v10_custom`). -/
structure FlatComparison1 where
  custom_additions : List JObj
  modifications : List JObj
deriving Repr, DecidableEq

/-- Results of the second comparison (`v10_upstream_vs_v15_upstream`). -/
structure FlatComparison2 where
  dawn_additions : List JObj
  dawn_modifications : List JObj
deriving Repr, DecidableEq

/-- Results of the third comparison (`v10_custom_vs_v15_upstream`). -/
structure FlatComparison3 where
  conflict_additions : List JObj
  conflict_modifications : List JObj
deriving Repr, DecidableEq

/-- The result dict of `analyze_locale` / `analyze_settings_data`. -/
structure FlatAnalysis where
  v10_upstream_vs_v10_custom : FlatComparison1
  v10_upstream_vs_v15_upstream : FlatComparison2
  v10_custom_vs_v15_upstream : FlatComparison3
deriving Repr, DecidableEq

/-- An addition record of `analyze_locale`/`analyze_settings_data`
(`key`/`value`/`comparison`/`description`). -/
def flatAddRecord (k : String) (v : Json) (comparison descr : String) : JObj :=
  [("key", .str k), ("value", v), ("comparison", .str comparison),
   ("description", .str descr)]

/-- A modification record with `old_value`/`new_value` field names
(comparisons 1 and 2). -/
def flatModRecord (k : String) (oldV newV : Json) (comparison descr : String) : JObj :=
  [("key", .str k), ("old_value", oldV), ("new_value", newV),
   ("comparison", .str comparison), ("description", .str descr)]

/-- A modification record with `our_value`/`dawn_value` field names
(comparison 3). -/
def flatConflictRecord (k : String) (ourV dawnV : Json) (comparison descr : String) : JObj :=
  [("key", .str k), ("our_value", ourV), ("dawn_value", dawnV),
   ("comparison", .str comparison), ("description", .str descr)]

/-- `analyze_locale` (lines 216-288). -/
def analyze_locale (dawn_v10 current dawn_v15 : JObj) : FlatAnalysis :=
  { v10_upstream_vs_v10_custom :=
    { custom_additions := current.filterMap fun q =>
        if (dawn_v10.lookup q.1).isNone then
          if pyStartsWith q.1 "custom_" then
            some (flatAddRecord q.1 q.2 "v10_upstream_vs_v10_custom"
              ("Custom translation key: " ++ q.1))
          else none
        else none
      modifications := current.filterMap fun q =>
        match dawn_v10.lookup q.1 with
        | some v0 =>
          if !pyEqJ v0 q.2 then
            some (flatModRecord q.1 v0 q.2 "v10_upstream_vs_v10_custom"
              ("Modified translation: " ++ q.1))
          else none
        | none => none }
    v10_upstream_vs_v15_upstream :=
    { dawn_additions := dawn_v15.filterMap fun q =>
        if (dawn_v10.lookup q.1).isNone then
          some (flatAddRecord q.1 q.2 "v10_upstream_vs_v15_upstream"
            ("Dawn 15.4.0 added translation key: " ++ q.1))
        else none
      dawn_modifications := dawn_v15.filterMap fun q =>
        match dawn_v10.lookup q.1 with
        | some v0 =>
          if !pyEqJ v0 q.2 then
            some (flatModRecord q.1 v0 q.2 "v10_upstream_vs_v15_upstream"
              ("Dawn 15.4.0 modified translation: " ++ q.1))
          else none
        | none => none }
    v10_custom_vs_v15_upstream :=
    { conflict_additions := dawn_v15.filterMap fun q =>
        if (current.lookup q.1).isNone then
          some (flatAddRecord q.1 q.2 "v10_custom_vs_v15_upstream"
            ("Conflict: Dawn 15.4.0 has translation key " ++ q.1 ++
              " that we don\x27t have"))
        else none
      conflict_modifications := dawn_v15.filterMap fun q =>
        match current.lookup q.1 with
        | some v0 =>
          if !pyEqJ v0 q.2 then
            some (flatConflictRecord q.1 v0 q.2 "v10_custom_vs_v15_upstream"
              ("Conflict: Both we and Dawn 15.4.0 modified translation " ++ q.1))
          else none
        | none => none } }

/-- Python `isinstance(value, (dict, list))` (line 321). -/
def Json.isContainer : Json → Bool
  | .arr _ => true
  | .obj _ => true
  | _ => false

/-- `analyze_settings_data` (lines 291-366).  It differs from
`analyze_locale` in its description texts and in the extra condition on
comparison-1 modifications (line 321). -/
def analyze_settings_data (dawn_v10 current dawn_v15 : JObj) : FlatAnalysis :=
  { v10_upstream_vs_v10_custom :=
    { custom_additions := current.filterMap fun q =>
        if (dawn_v10.lookup q.1).isNone then
          if pyStartsWith q.1 "custom_" then
            some (flatAddRecord q.1 q.2 "v10_upstream_vs_v10_custom"
              ("Custom setting value: " ++ q.1))
          else none
        else none
      modifications := current.filterMap fun q =>
        match dawn_v10.lookup q.1 with
        | some v0 =>
          if !pyEqJ v0 q.2 then
            if pyStartsWith q.1 "custom_" || q.2.isContainer then
              some (flatModRecord q.1 v0 q.2 "v10_upstream_vs_v10_custom"
                ("Modified setting value: " ++ q.1))
            else none
          else none
        | none => none }
    v10_upstream_vs_v15_upstream :=
    { dawn_additions := dawn_v15.filterMap fun q =>
        if (dawn_v10.lookup q.1).isNone then
          some (flatAddRecord q.1 q.2 "v10_upstream_vs_v15_upstream"
            ("Dawn 15.4.0 added setting value: " ++ q.1))
        else none
      dawn_modifications := dawn_v15.filterMap fun q =>
        match dawn_v10.lookup q.1 with
        | some v0 =>
          if !pyEqJ v0 q.2 then
            some (flatModRecord q.1 v0 q.2 "v10_upstream_vs_v15_upstream"
              ("Dawn 15.4.0 modified setting value: " ++ q.1))
          else none
        | none => none }
    v10_custom_vs_v15_upstream :=
    { conflict_additions := dawn_v15.filterMap fun q =>
        if (current.lookup q.1).isNone then
          some (flatAddRecord q.1 q.2 "v10_custom_vs_v15_upstream"
            ("Conflict: Dawn 15.4.0 has setting value " ++ q.1 ++
              " that we don\x27t have"))
        else none
      conflict_modifications := dawn_v15.filterMap fun q =>
        match current.lookup q.1 with
        | some v0 =>
          if !pyEqJ v0 q.2 then
            some (flatConflictRecord q.1 v0 q.2 "v10_custom_vs_v15_upstream"
              ("Conflict: Both we and Dawn 15.4.0 modified setting value " ++ q.1))
          else none
        | none => none } }

/-! ## analyze_settings_schema (analyze-all-json-diffs.py lines 29-213)

The schema comparator works on maps keyed by arbitrary (hashable) JSON
values: section maps keyed by `item.get('name')` and per-section setting
maps keyed by `s.get('id')`.  Dict construction can raise `TypeError`
on an unhashable key, and iterating a malformed `settings` value can
raise `AttributeError`/`TypeError`; both are modelled by `Option`.

Two external capabilities are parameters:

* `dd` models `DeepDiff(a, b, ignore_order=True, verbose_level=2)`:
  `none` for an empty (falsy) diff, `some s` for a truthy diff whose
  `str()` is `s`;
* `inter` models the iteration order of `a.keys() & b.keys()`: some
  enumeration of the common keys (CPython's actual order depends on the
  process's randomized string hash seed). -/

/-- A Python dict keyed by JSON values, holding settings entries or
sections. -/
abbrev JMap := List (Json × JObj)

/-- `k in m` for a JSON-keyed dict. -/
def jmem (k : Json) (m : JMap) : Bool := m.any fun q => q.1 == k

/-- `m.keys()`, in insertion order. -/
def jkeys (m : JMap) : List Json := m.map Prod.fst

/-- `m[k]` (the scripts only index keys that are present; an absent key
yields the empty object here). -/
def jview (m : JMap) (k : Json) : JObj :=
  match m.find? fun q => q.1 == k with
  | some q => q.2
  | none => []

/-- CPython `dict` assignment for JSON-keyed dicts: an existing key
keeps its position, a new key is appended. -/
def jinsertMap (m : JMap) (k : Json) (v : JObj) : JMap :=
  if jmem k m then m.map fun q => if q.1 == k then (k, v) else q
  else m ++ [(k, v)]

/-- The model of `DeepDiff(..., ignore_order=True, verbose_level=2)`. -/
abbrev DeepDiffFn := JObj → JObj → Option String

/-- The model of the iteration order of `dict.keys() & dict.keys()`. -/
abbrev InterFn := List Json → List Json → List Json

/-- An admissible intersection-iteration model: it enumerates exactly
the common keys, in some order. -/
def InterAdmissible (inter : InterFn) : Prop :=
  ∀ a b : List Json, (inter a b).Perm (a.filter fun k => b.contains k)

/-- The canonical admissible intersection order (first operand's
order). -/
def interCanonical : InterFn := fun a b => a.filter fun k => b.contains k

/-- Another admissible intersection order (reversed), realizable under a
different string-hash seed. -/
def interReversed : InterFn := fun a b => (a.filter fun k => b.contains k).reverse

/-- A concrete stand-in for `DeepDiff` used by witnesses: structural
equality, with a fixed description for differing entries. -/
def ddStructural : DeepDiffFn := fun a b => if a == b then none else some "changed"

/-- `Option`-valued map over a list, in iteration order (`none` as soon
as one element fails; used to model loops whose body can raise). -/
def optionMapM {α β : Type} (f : α → Option β) : List α → Option (List β)
  | [] => some []
  | a :: t =>
    match f a with
    | some b =>
      match optionMapM f t with
      | some bs => some (b :: bs)
      | none => none
    | none => none

/-- Python iteration over a `settings` value whose elements must be
dicts: `none` models the `AttributeError`/`TypeError` raised when the
value is a non-empty string or dict (whose elements are not dicts), a
list with a non-dict element, or a non-iterable. -/
def pyIterDicts : Json → Option (List JObj)
  | .arr l => optionMapM (fun j =>
      match j with
      | .obj f => some f.toList
      | _ => none) l.toList
  | .str s => if s.isEmpty then some [] else none
  | .obj f => if f matches .nil then some [] else none
  | _ => none

/-- `section.get('settings', [])` followed by iteration over dict
elements (lines 84, 100-101, 142-143, 184-185). -/
def getSettings (sec : JObj) : Option (List JObj) :=
  match sec.lookup "settings" with
  | none => some []
  | some v => pyIterDicts v

/-- The section-map comprehension of lines 72-74:
`{item.get('name'): item for item in items if item.get('name') != 'theme_info'}`.
`none` models `TypeError` on an unhashable name. -/
def buildSectionMapAux : List JObj → JMap → Option JMap
  | [], acc => some acc
  | item :: rest, acc =>
    let name := pyGet item "name"
    if name == Json.str "theme_info" then buildSectionMapAux rest acc
    else if name.hashable then buildSectionMapAux rest (jinsertMap acc name item)
    else none

/-- The section map of one snapshot. -/
def buildSectionMap (items : List JObj) : Option JMap :=
  buildSectionMapAux items []

/-- The settings-map comprehension of lines 100-101 (and 142-143,
184-185): `{s.get('id'): s for s in settings if s.get('id')}`. -/
def buildIdMapAux : List JObj → JMap → Option JMap
  | [], acc => some acc
  | s :: rest, acc =>
    let i := pyGet s "id"
    if i.truthy then
      if i.hashable then buildIdMapAux rest (jinsertMap acc i s)
      else none
    else buildIdMapAux rest acc

/-- The id-keyed settings map of one section. -/
def buildIdMap (settings : List JObj) : Option JMap :=
  buildIdMapAux settings []

/-- The whole-section addition record of comparison 1 (lines 79-83). -/
def secRec1 (n : Json) : JObj :=
  [("name", n), ("comparison", .str "v10_upstream_vs_v10_custom"),
   ("description", .str ("Custom section: " ++ n.pyStr))]

/-- The per-entry addition record of comparison 1 (lines 86-93 and
106-113). -/
def addRec1 (n i : Json) (s : JObj) : JObj :=
  [("id", i), ("section", n), ("comparison", .str "v10_upstream_vs_v10_custom"),
   ("type", pyGet s "type"), ("label", pyGetD s "label" (.str "")),
   ("description", .str ("Custom setting in " ++ n.pyStr ++ ": " ++
     (pyGetD s "label" i).pyStr))]

/-- The modification record of comparison 1 (lines 119-127). -/
def modRec1 (n i : Json) (cur : JObj) (changes : String) : JObj :=
  [("id", i), ("section", n), ("comparison", .str "v10_upstream_vs_v10_custom"),
   ("type", pyGet cur "type"), ("label", pyGetD cur "label" (.str "")),
   ("changes", .str changes),
   ("description", .str ("Modified Dawn setting in " ++ n.pyStr ++ ": " ++
     (pyGetD cur "label" i).pyStr))]

/-- The whole-section addition record of comparison 2 (lines 132-136). -/
def secRec2 (n : Json) : JObj :=
  [("name", n), ("comparison", .str "v10_upstream_vs_v15_upstream"),
   ("description", .str ("Dawn 15.4.0 added section: " ++ n.pyStr))]

/-- The per-entry addition record of comparison 2 (lines 148-155). -/
def addRec2 (n i : Json) (s : JObj) : JObj :=
  [("id", i), ("section", n), ("comparison", .str "v10_upstream_vs_v15_upstream"),
   ("type", pyGet s "type"), ("label", pyGetD s "label" (.str "")),
   ("description", .str ("Dawn 15.4.0 added setting in " ++ n.pyStr ++ ": " ++
     (pyGetD s "label" i).pyStr))]

/-- The modification record of comparison 2 (lines 161-169). -/
def modRec2 (n i : Json) (v15s : JObj) (changes : String) : JObj :=
  [("id", i), ("section", n), ("comparison", .str "v10_upstream_vs_v15_upstream"),
   ("type", pyGet v15s "type"), ("label", pyGetD v15s "label" (.str "")),
   ("changes", .str changes),
   ("description", .str ("Dawn 15.4.0 modified setting in " ++ n.pyStr ++ ": " ++
     (pyGetD v15s "label" i).pyStr))]

/-- The whole-section addition record of comparison 3 (lines 174-178). -/
def secRec3 (n : Json) : JObj :=
  [("name", n), ("comparison", .str "v10_custom_vs_v15_upstream"),
   ("description", .str ("Conflict: Dawn 15.4.0 has section " ++ n.pyStr ++
     " that we don\x27t have"))]

/-- The per-entry addition record of comparison 3 (lines 190-197). -/
def addRec3 (n i : Json) (s : JObj) : JObj :=
  [("id", i), ("section", n), ("comparison", .str "v10_custom_vs_v15_upstream"),
   ("type", pyGet s "type"), ("label", pyGetD s "label" (.str "")),
   ("description", .str ("Conflict: Dawn 15.4.0 added setting " ++ i.pyStr ++
     " in " ++ n.pyStr))]

/-- The modification record of comparison 3 (lines 203-211). -/
def modRec3 (n i : Json) (cur : JObj) (changes : String) : JObj :=
  [("id", i), ("section", n), ("comparison", .str "v10_custom_vs_v15_upstream"),
   ("type", pyGet cur "type"), ("label", pyGetD cur "label" (.str "")),
   ("changes", .str changes),
   ("description", .str ("Conflict: Both we and Dawn 15.4.0 modified setting " ++
     i.pyStr ++ " in " ++ n.pyStr))]

/-- The `theme_info` version-change records of lines 56-69. -/
def themeInfoChanges (v10ti cti v15ti : JObj) : JObj :=
  (if !pyEqJ (pyGet v10ti "theme_version") (pyGet cti "theme_version") then
    [("v10_custom", Json.objOf
      [("old", pyGet v10ti "theme_version"), ("new", pyGet cti "theme_version"),
       ("comparison", .str "v10_upstream_vs_v10_custom")])]
   else []) ++
  (if !pyEqJ (pyGet v10ti "theme_version") (pyGet v15ti "theme_version") then
    [("v15_upstream", Json.objOf
      [("old", pyGet v10ti "theme_version"), ("new", pyGet v15ti "theme_version"),
       ("comparison", .str "v10_upstream_vs_v15_upstream")])]
   else [])

/-- The per-entry additions for one brand-new section of comparison 1
(the inner loop of lines 84-93). -/
def newSectionEntries1 (msrc : JMap) (n : Json) : Option (List JObj) :=
  match getSettings (jview msrc n) with
  | some settings =>
    some (settings.filterMap fun s =>
      if (pyGet s "id").truthy then some (addRec1 n (pyGet s "id") s) else none)
  | none => none

/-- The id-keyed settings maps of one section present in both snapshots
of a pair, in the evaluation order of lines 97-101 (and 139-143,
181-185): both `settings` iterations, then both map comprehensions;
`none` as soon as one raises. -/
def sectionMapsOf (baseM compM : JMap) (n : Json) : Option (JMap × JMap) :=
  match getSettings (jview baseM n) with
  | none => none
  | some baseSettings =>
    match getSettings (jview compM n) with
    | none => none
    | some compSettings =>
      match buildIdMap baseSettings with
      | none => none
      | some baseIds =>
        match buildIdMap compSettings with
        | none => none
        | some compIds => some (baseIds, compIds)

/-- The per-entry additions of a common section (lines 103-113,
145-155, 187-197): entries of the compare side absent from the base
side, in the compare side's iteration order. -/
def blockAdds (mkAdd : Json → Json → JObj → JObj) (baseIds compIds : JMap)
    (n : Json) : List JObj :=
  compIds.filterMap fun q =>
    if jmem q.1 baseIds then none else some (mkAdd n q.1 q.2)

/-- The modification records of a common section (lines 115-127,
157-169, 199-211): ids present on both sides, in the iteration order of
`keys() & keys()`, kept when `DeepDiff` is non-empty. -/
def blockMods (dd : DeepDiffFn) (inter : InterFn)
    (mkMod : Json → Json → JObj → String → JObj) (baseIds compIds : JMap)
    (n : Json) : List JObj :=
  (inter (jkeys baseIds) (jkeys compIds)).filterMap fun i =>
    match dd (jview baseIds i) (jview compIds i) with
    | some changes => some (mkMod n i (jview compIds i) changes)
    | none => none

/-- The additions and modifications contributed by one section present
in both snapshots of a pair (the generic body of the loops at lines
96-127, 138-169, 180-211), with the record builders passed in. -/
def commonBlock (dd : DeepDiffFn) (inter : InterFn)
    (mkAdd : Json → Json → JObj → JObj) (mkMod : Json → Json → JObj → String → JObj)
    (baseM compM : JMap) (n : Json) : Option (List JObj × List JObj) :=
  match sectionMapsOf baseM compM n with
  | none => none
  | some (baseIds, compIds) =>
    some (blockAdds mkAdd baseIds compIds n,
      blockMods dd inter mkMod baseIds compIds n)

/-- The `v10_upstream_vs_v10_custom` block of the result (lines 32-37). -/
structure SchemaComparison1 where
  custom_additions : List JObj
  modifications : List JObj
  removals : List JObj
  custom_sections : List JObj
deriving Repr, DecidableEq, Inhabited

/-- The `v10_upstream_vs_v15_upstream` block of the result (lines 38-42). -/
structure SchemaComparison2 where
  dawn_additions : List JObj
  dawn_modifications : List JObj
  dawn_removals : List JObj
deriving Repr, DecidableEq, Inhabited

/-- The `v10_custom_vs_v15_upstream` block of the result (lines 43-47). -/
structure SchemaComparison3 where
  conflict_additions : List JObj
  conflict_modifications : List JObj
  conflict_removals : List JObj
deriving Repr, DecidableEq, Inhabited

/-- The result dict of `analyze_settings_schema` (lines 31-49). -/
structure SchemaAnalysis where
  v10_upstream_vs_v10_custom : SchemaComparison1
  v10_upstream_vs_v15_upstream : SchemaComparison2
  v10_custom_vs_v15_upstream : SchemaComparison3
  theme_info_changes : JObj
deriving Repr, DecidableEq, Inhabited

/-- `analyze_settings_schema` (lines 29-213). -/
def analyze_settings_schema (dd : DeepDiffFn) (inter : InterFn)
    (dawn_v10 current dawn_v15 : List JObj) : Option SchemaAnalysis :=
  let isThemeInfo : JObj → Bool := fun it => pyGet it "name" == Json.str "theme_info"
  let v10ti := (dawn_v10.find? isThemeInfo).getD []
  let cti := (current.find? isThemeInfo).getD []
  let v15ti := (dawn_v15.find? isThemeInfo).getD []
  match buildSectionMap dawn_v10 with
  | none => none
  | some v10sections =>
    match buildSectionMap current with
    | none => none
    | some curSections =>
      match buildSectionMap dawn_v15 with
      | none => none
      | some v15sections =>
        -- Comparison 1, new sections (lines 77-93)
        let newSecs1 := (jkeys curSections).filter fun n => !jmem n v10sections
        match optionMapM (newSectionEntries1 curSections) newSecs1 with
        | none => none
        | some newAdds1 =>
          -- Comparison 1, common sections (lines 96-127)
          match optionMapM (commonBlock dd inter addRec1 modRec1 v10sections curSections)
              (inter (jkeys v10sections) (jkeys curSections)) with
          | none => none
          | some blocks1 =>
            -- Comparison 2 (lines 130-169)
            let newSecs2 := (jkeys v15sections).filter fun n => !jmem n v10sections
            match optionMapM (commonBlock dd inter addRec2 modRec2 v10sections v15sections)
                (inter (jkeys v10sections) (jkeys v15sections)) with
            | none => none
            | some blocks2 =>
              -- Comparison 3 (lines 172-211)
              let newSecs3 := (jkeys v15sections).filter fun n => !jmem n curSections
              match optionMapM (commonBlock dd inter addRec3 modRec3 curSections v15sections)
                  (inter (jkeys curSections) (jkeys v15sections)) with
              | none => none
              | some blocks3 =>
                some
                  { v10_upstream_vs_v10_custom :=
                    { custom_additions :=
                        newAdds1.flatten ++ (blocks1.map Prod.fst).flatten
                      modifications := (blocks1.map Prod.snd).flatten
                      removals := []
                      custom_sections := newSecs1.map secRec1 }
                    v10_upstream_vs_v15_upstream :=
                    { dawn_additions :=
                        newSecs2.map secRec2 ++ (blocks2.map Prod.fst).flatten
                      dawn_modifications := (blocks2.map Prod.snd).flatten
                      dawn_removals := [] }
                    v10_custom_vs_v15_upstream :=
                    { conflict_additions :=
                        newSecs3.map secRec3 ++ (blocks3.map Prod.fst).flatten
                      conflict_modifications := (blocks3.map Prod.snd).flatten
                      conflict_removals := [] }
                    theme_info_changes := themeInfoChanges v10ti cti v15ti }

/-! ## Well-formedness and entry/section transforms (claim C6)

`analyze_settings_schema` raises on a section whose `settings` value
cannot be iterated as dicts, or whose setting ids / section name are
unhashable; `schemaWF` rules those out.  The two transforms below state
what "silently skipped" does and does not mean: deleting id-less entries
leaves the result unchanged, and a missing section `name` behaves
exactly like an explicit `null` name. -/

/-- A settings entry that does not crash the id-map comprehension: a
falsy id, or a hashable one. -/
def entryWF (s : JObj) : Bool :=
  !(pyGet s "id").truthy || (pyGet s "id").hashable

/-- A section the comparator can process without raising. -/
def sectionWF (sec : JObj) : Bool :=
  (pyGet sec "name").hashable &&
    match getSettings sec with
    | some ss => ss.all entryWF
    | none => false

/-- A snapshot the comparator can process without raising. -/
def schemaWF (items : List JObj) : Bool := items.all sectionWF

/-- Whether a `settings` element survives id-less-entry deletion: every
non-object survives (it would crash the run, exactly as before), an
object survives iff its id is truthy. -/
def keepSettingElem : Json → Bool
  | .obj f => (pyGet f.toList "id").truthy
  | _ => true

/-- Keep only the id-carrying entries of the list form of a settings
value. -/
def entriesKeep (ss : List JObj) : List JObj :=
  ss.filter fun s => (pyGet s "id").truthy

/-- Delete id-less entries inside a `settings` value. -/
def dropIdlessVal : Json → Json
  | .arr l => .arr (JsonList.ofList (l.toList.filter keepSettingElem))
  | v => v

/-- Delete id-less entries from a section's `settings` field. -/
def dropIdlessSec (sec : JObj) : JObj :=
  sec.map fun q => if q.1 == "settings" then (q.1, dropIdlessVal q.2) else q

/-- Delete id-less entries from every section of a snapshot. -/
def dropIdless (items : List JObj) : List JObj := items.map dropIdlessSec

/-- Materialize a missing section `name` as an explicit `null`. -/
def explicitNameSec (sec : JObj) : JObj :=
  if (sec.lookup "name").isSome then sec else sec ++ [("name", Json.null)]

/-- Materialize missing `name`s across a snapshot. -/
def explicitNames (items : List JObj) : List JObj := items.map explicitNameSec

/-! ## Concrete inputs for counterexamples and witnesses -/

/-- A section carrying one id-labelled entry, used as the `compare`-only
section of the C1 counterexample. -/
def newSecInput : JObj :=
  [("name", .str "s"),
   ("settings", Json.arrOf [Json.objOf [("id", .str "x"), ("type", .str "checkbox")]])]

/-- A section with no `name` field but an id-carrying entry (C6). -/
def namelessSecInput : JObj :=
  [("settings", Json.arrOf [Json.objOf [("id", .str "x")]])]

/-- A section whose `settings` value is a number: iterating it raises
`TypeError` in Python (C6). -/
def badSettingsSecInput : JObj := [("name", .str "a"), ("settings", .num 5)]

/-- A one-entry section named `a`, with the entry's `default` field set
to the given value (C8). -/
def secAInput (v : Int) : JObj :=
  [("name", .str "a"),
   ("settings", Json.arrOf [Json.objOf [("id", .str "x"), ("default", .num v)]])]

/-- A one-entry section named `b` (C8). -/
def secBInput (v : Int) : JObj :=
  [("name", .str "b"),
   ("settings", Json.arrOf [Json.objOf [("id", .str "y"), ("default", .num v)]])]

/-- A small old-upstream locale snapshot (C9 witness). -/
def wLocaleV10 : JObj := [("a", .str "1")]

/-- The matching custom snapshot: one `custom_`-prefixed new key and one
unprefixed new key (C9 witness). -/
def wLocaleCur : JObj := [("a", .str "1"), ("custom_c", .str "3"), ("plain_d", .str "4")]

/-- The matching new-upstream snapshot with a new key (C9 witness). -/
def wLocaleV15 : JObj := [("a", .str "1"), ("newkey", .str "5")]

/-- The part of the C4 diff text before the deleted file's own section:
an unrelated modified file whose hunk contains an added line. -/
def bugDiffPreamble : String :=
  "diff --git a/assets/x.js b/assets/x.js\nindex 1111111..2222222 100644\n--- a/assets/x.js\n+++ b/assets/x.js\n@@ -1,1 +1,2 @@\n var a;\n+var custom;\n"

/-- The deleted file's own diff section in the C4 text: a pure deletion,
with no added line. -/
def bugDiffOwnSection : String :=
  "diff --git a/.gitignore b/.gitignore\ndeleted file mode 100644\nindex 3333333..0000000\n--- a/.gitignore\n+++ /dev/null\n@@ -1,1 +0,0 @@\n-node_modules\n"

/-- The full C4 diff text. -/
def bugFullDiff : String := bugDiffPreamble ++ bugDiffOwnSection

/-- Transform every stored section of a JSON-keyed dict (used to state
the C6 invariances). -/
def mapValues (t : JObj → JObj) (m : JMap) : JMap :=
  m.map fun q => (q.1, t q.2)

/-! ## Helper lemmas for the classifier theorems -/

/-- Filtering a list by a predicate and by its negation partitions it. -/
theorem length_filter_partition {α} (p : α → Bool) (l : List α) :
    (l.filter p).length + (l.filter (fun a => !p a)).length = l.length := by
  induction l with
  | nil => rfl
  | cons a t ih =>
    by_cases h : p a <;> simp [List.filter_cons, h] <;> omega

/-- The length of a filtered mapped list, pushed through the map. -/
theorem length_filter_map_eq {α β} (f : α → β) (p : β → Bool) (l : List α) :
    ((l.map f).filter p).length = (l.filter (fun a => p (f a))).length := by
  induction l with
  | nil => rfl
  | cons a t ih => by_cases h : p (f a) <;> simp [List.filter_cons, h, ih]

/-- `dict` assignment: every entry of the result is the new binding or
one of the old ones. -/
theorem dinsertInfo_mem (d : List (String × ModifiedInfo)) (k : String)
    (v : ModifiedInfo) :
    ∀ q ∈ dinsertInfo d k v, q = (k, v) ∨ q ∈ d := by
  intro q hq
  unfold dinsertInfo at hq
  split at hq
  · obtain ⟨q0, hq0, hmap⟩ := List.mem_map.mp hq
    by_cases h : q0.1 == k
    · left; simp only [h, if_true] at hmap; exact hmap.symm
    · right; simp only [h, if_false] at hmap; exact hmap ▸ hq0
  · rcases List.mem_append.mp hq with h | h
    · right; exact h
    · left; simpa using h

/-- `dict` assignment: the inserted key is present afterwards. -/
theorem dinsertInfo_key_new (d : List (String × ModifiedInfo)) (k : String)
    (v : ModifiedInfo) :
    ∃ q ∈ dinsertInfo d k v, q.1 = k := by
  unfold dinsertInfo
  split
  · next hany =>
    obtain ⟨q0, hq0, hk⟩ := List.any_eq_true.mp hany
    refine ⟨(k, v), List.mem_map.mpr ⟨q0, hq0, ?_⟩, rfl⟩
    simp [hk]
  · exact ⟨(k, v), List.mem_append.mpr (Or.inr (by simp)), rfl⟩

/-- `dict` assignment: existing keys stay present. -/
theorem dinsertInfo_key_old (d : List (String × ModifiedInfo)) (k : String)
    (v : ModifiedInfo) (p : String) (h : ∃ q ∈ d, q.1 = p) :
    ∃ q ∈ dinsertInfo d k v, q.1 = p := by
  by_cases hpk : p = k
  · subst hpk; exact dinsertInfo_key_new d p v
  · obtain ⟨q0, hq0, hq0p⟩ := h
    unfold dinsertInfo
    split
    · refine ⟨q0, List.mem_map.mpr ⟨q0, hq0, ?_⟩, hq0p⟩
      have : (q0.1 == k) = false := by
        simp only [beq_eq_false_iff_ne, ne_eq]
        exact fun hc => hpk (hq0p ▸ hc)
      simp [this]
    · exact ⟨q0, List.mem_append.mpr (Or.inl hq0), hq0p⟩

/-- Every entry of the `modified_dawn_files` dict carries exactly the
record built for its own key. -/
theorem buildModified_entries (ds1 ds2 ds3 : Option FileChanges)
    (l : List String) :
    ∀ q ∈ buildModified ds1 ds2 ds3 l, q.2 = mkModifiedInfo ds1 ds2 ds3 q.1 := by
  suffices h : ∀ (l : List String) (acc : List (String × ModifiedInfo)),
      (∀ q ∈ acc, q.2 = mkModifiedInfo ds1 ds2 ds3 q.1) →
      ∀ q ∈ l.foldl (fun acc p => dinsertInfo acc p (mkModifiedInfo ds1 ds2 ds3 p)) acc,
        q.2 = mkModifiedInfo ds1 ds2 ds3 q.1 by
    exact h l [] (by intro q hq; cases hq)
  intro l
  induction l with
  | nil => intro acc hacc; simpa using hacc
  | cons x xs ih =>
    intro acc hacc
    rw [List.foldl_cons]
    refine ih _ ?_
    intro q hq
    rcases dinsertInfo_mem _ _ _ q hq with h | h
    · rw [h]
    · exact hacc q h

/-- Every path of the input list is a key of the `modified_dawn_files`
dict. -/
theorem buildModified_keys (ds1 ds2 ds3 : Option FileChanges)
    (l : List String) (p : String) (hp : p ∈ l) :
    ∃ q ∈ buildModified ds1 ds2 ds3 l, q.1 = p := by
  suffices h : ∀ (l : List String) (acc : List (String × ModifiedInfo)),
      (p ∈ l ∨ ∃ q ∈ acc, q.1 = p) →
      ∃ q ∈ l.foldl (fun acc p => dinsertInfo acc p (mkModifiedInfo ds1 ds2 ds3 p)) acc,
        q.1 = p by
    exact h l [] (Or.inl hp)
  intro l
  induction l with
  | nil =>
    intro acc hacc
    rcases hacc with h | h
    · cases h
    · simpa using h
  | cons x xs ih =>
    intro acc hacc
    rw [List.foldl_cons]
    refine ih _ ?_
    rcases hacc with h | h
    · rcases List.mem_cons.mp h with h | h
      · exact Or.inr (h ▸ dinsertInfo_key_new acc x _)
      · exact Or.inl h
    · exact Or.inr (dinsertInfo_key_old acc x _ p h)

/-- The fold of `parse_file_changes`, from any accumulator, appends the
per-status path lists. -/
theorem foldl_parseFileChangesLine (lines : List String) (acc : FileChanges) :
    lines.foldl parseFileChangesLine acc =
      ⟨acc.added ++ statusPaths 'A' lines,
       acc.modified ++ statusPaths 'M' lines,
       acc.deleted ++ statusPaths 'D' lines⟩ := by
  induction lines generalizing acc with
  | nil => simp [statusPaths]
  | cons l ls ih =>
    rw [List.foldl_cons, ih]
    by_cases h0 : pyIsEmpty (pyStrip l)
    · simp [parseFileChangesLine, statusPaths, h0]
    · by_cases hA : pyFront (pyStrip l) = 'A'
      · simp [parseFileChangesLine, statusPaths, h0, hA]
      · by_cases hM : pyFront (pyStrip l) = 'M'
        · simp [parseFileChangesLine, statusPaths, h0, hA, hM]
        · by_cases hD : pyFront (pyStrip l) = 'D'
          · simp [parseFileChangesLine, statusPaths, h0, hA, hM, hD]
          · simp [parseFileChangesLine, statusPaths, h0, hA, hM, hD]

/-- C10: `parse_file_changes` assigns a path to the `added`, `modified`
or `deleted` list exactly when its stripped line is non-empty and begins
with `A`, `M` or `D` respectively (`statusPaths`, written from the
claim); a line whose status starts with any other character contributes
to no list and so receives no classification downstream. -/
theorem parse_file_changes_statusPaths (lines : List String) :
    parse_file_changes lines =
      ⟨statusPaths 'A' lines, statusPaths 'M' lines, statusPaths 'D' lines⟩ := by
  unfold parse_file_changes
  rw [foldl_parseFileChangesLine]
  rfl

/-- C7: with the version configuration file missing, `main()` of
generate-all-diffs.py returns 1, but its module guard (lines 273-274)
discards the return value, so the process exits with status 0 — the
claimed exit status 1 is only delivered by extract-dawn-files.py, whose
guard is `exit(main())`. -/
theorem exit_status_missing_config :
    generateAllDiffsMain none = 1 ∧
    generateAllDiffsExitStatus none = 0 ∧
    extractDawnFilesExitStatus none = 1 ∧
    generateAllDiffsExitStatus (some []) = 0 ∧
    extractDawnFilesExitStatus (some []) = 0 :=
  ⟨rfl, rfl, rfl, rfl, rfl⟩

/-- C2 (amended): for every classifier input, the
`modified_dawn_files` dict — one entry per distinct modified path — is
partitioned exactly into the revert and patch buckets, and the
`removed_dawn_files` list exactly into restore and accept; hence the
consistency warning of `main` (implemented only for the modified check)
never fires and both validation flags are always true. -/
theorem classifyMain_counts (fc : FileChanges) (fdc : String)
    (ds1 ds2 ds3 : Option FileChanges) :
    (classifyMain fc fdc ds1 ds2 ds3).categorized.modified_dawn_files.length =
        (classifyMain fc fdc ds1 ds2 ds3).files_to_revert_to_clean.length +
        (classifyMain fc fdc ds1 ds2 ds3).files_to_patch_modified.length ∧
    fc.deleted.length =
        (classifyMain fc fdc ds1 ds2 ds3).files_to_restore_from_dawn.length +
        (classifyMain fc fdc ds1 ds2 ds3).files_to_accept_dawn_15_4.length ∧
    (classifyMain fc fdc ds1 ds2 ds3).warning_printed = false ∧
    (classifyMain fc fdc ds1 ds2 ds3).validation_modified_ok = true ∧
    (classifyMain fc fdc ds1 ds2 ds3).validation_removed_ok = true := by
  have hmod :
      (classifyMain fc fdc ds1 ds2 ds3).categorized.modified_dawn_files.length =
        (classifyMain fc fdc ds1 ds2 ds3).files_to_revert_to_clean.length +
        (classifyMain fc fdc ds1 ds2 ds3).files_to_patch_modified.length := by
    simp only [classifyMain, categorize_files, List.length_map]
    exact (length_filter_partition
      (fun q : String × ModifiedInfo => q.2.revert_to_clean) _).symm
  have hremEq : ∀ a : String,
      (mkRemovedInfo fdc ds1 ds2 ds3 a).should_restore
        = !(isDevConfig a) ∧
      (mkRemovedInfo fdc ds1 ds2 ds3 a).accept_dawn_15_4 = isDevConfig a := by
    intro a; constructor <;> simp [mkRemovedInfo]
  have hrem :
      fc.deleted.length =
        (classifyMain fc fdc ds1 ds2 ds3).files_to_restore_from_dawn.length +
        (classifyMain fc fdc ds1 ds2 ds3).files_to_accept_dawn_15_4.length := by
    simp only [classifyMain, categorize_files, buildRemoved, List.length_map]
    rw [length_filter_map_eq, length_filter_map_eq]
    have h1 : (fc.deleted.filter fun a => (mkRemovedInfo fdc ds1 ds2 ds3 a).should_restore)
        = fc.deleted.filter fun a => !(isDevConfig a) := by
      apply List.filter_congr
      intro a _; exact (hremEq a).1
    have h2 : (fc.deleted.filter fun a => (mkRemovedInfo fdc ds1 ds2 ds3 a).accept_dawn_15_4)
        = fc.deleted.filter fun a => isDevConfig a := by
      apply List.filter_congr
      intro a _; exact (hremEq a).2
    rw [h1, h2]
    have := length_filter_partition (fun a => isDevConfig a) fc.deleted
    omega
  refine ⟨hmod, hrem, ?_, ?_, ?_⟩
  · simp only [classifyMain, categorize_files] at hmod ⊢
    simp only [List.length_map] at hmod ⊢
    simp [hmod]
  · simp only [classifyMain, categorize_files] at hmod ⊢
    simp only [List.length_map] at hmod ⊢
    simp [hmod]
  · simp only [classifyMain, categorize_files, buildRemoved] at hrem ⊢
    simp only [List.length_map] at hrem ⊢
    simp [hrem]

/-- C2 (counterexample): with a duplicated modified path the input
`modified` list has two entries but the dict-backed buckets only one;
the claimed equality `len(modified) = len(revert) + len(patch)` fails,
yet no warning is printed, because the code compares against the dict
size rather than the input list length. -/
theorem classifyMain_counts_cex :
    (FileChanges.mk [] ["a.liquid", "a.liquid"] []).modified.length ≠
      (classifyMain ⟨[], ["a.liquid", "a.liquid"], []⟩ "" none none none).files_to_revert_to_clean.length +
      (classifyMain ⟨[], ["a.liquid", "a.liquid"], []⟩ "" none none none).files_to_patch_modified.length ∧
    (classifyMain ⟨[], ["a.liquid", "a.liquid"], []⟩ "" none none none).warning_printed = false := by
  constructor
  · decide
  · rfl

/-- C3 (amended): every modified path that starts with `locales/` but
not with `locales/en.`, or equals `README.md`, is placed in
`files_to_revert_to_clean` and never in `files_to_patch_modified`;
every other modified path is placed in `files_to_patch_modified` and
never in `files_to_revert_to_clean`.  (The code tests the path prefix
`locales/en.`, not the filename.) -/
theorem classifyMain_modified_rule (fc : FileChanges) (fdc : String)
    (ds1 ds2 ds3 : Option FileChanges) (p : String) (hp : p ∈ fc.modified) :
    (revertCondition p = true →
      p ∈ (classifyMain fc fdc ds1 ds2 ds3).files_to_revert_to_clean ∧
      p ∉ (classifyMain fc fdc ds1 ds2 ds3).files_to_patch_modified) ∧
    (revertCondition p = false →
      p ∈ (classifyMain fc fdc ds1 ds2 ds3).files_to_patch_modified ∧
      p ∉ (classifyMain fc fdc ds1 ds2 ds3).files_to_revert_to_clean) := by
  obtain ⟨q, hq, hq1⟩ := buildModified_keys ds1 ds2 ds3 fc.modified p hp
  have hq2 := buildModified_entries ds1 ds2 ds3 fc.modified q hq
  have hmemrev : revertCondition p = true →
      p ∈ ((buildModified ds1 ds2 ds3 fc.modified).filter
        fun q => q.2.revert_to_clean).map (fun q => q.1) := by
    intro hrc
    refine List.mem_map.mpr ⟨q, List.mem_filter.mpr ⟨hq, ?_⟩, hq1⟩
    rw [hq2, hq1]
    simpa [mkModifiedInfo] using hrc
  have hmempatch : revertCondition p = false →
      p ∈ ((buildModified ds1 ds2 ds3 fc.modified).filter
        fun q => !q.2.revert_to_clean).map (fun q => q.1) := by
    intro hrc
    refine List.mem_map.mpr ⟨q, List.mem_filter.mpr ⟨hq, ?_⟩, hq1⟩
    rw [hq2, hq1]
    simp [mkModifiedInfo, hrc]
  have hallrev : ∀ q2 ∈ buildModified ds1 ds2 ds3 fc.modified, q2.1 = p →
      q2.2.revert_to_clean = revertCondition p := by
    intro q2 hq2mem hq2key
    rw [buildModified_entries ds1 ds2 ds3 fc.modified q2 hq2mem, hq2key]
    rfl
  have hnotpatch : revertCondition p = true →
      p ∉ ((buildModified ds1 ds2 ds3 fc.modified).filter
        fun q => !q.2.revert_to_clean).map (fun q => q.1) := by
    intro hrc hmem
    obtain ⟨q2, hq2f, hq2key⟩ := List.mem_map.mp hmem
    obtain ⟨hq2mem, hq2flag⟩ := List.mem_filter.mp hq2f
    rw [hallrev q2 hq2mem hq2key, hrc] at hq2flag
    simp at hq2flag
  have hnotrev : revertCondition p = false →
      p ∉ ((buildModified ds1 ds2 ds3 fc.modified).filter
        fun q => q.2.revert_to_clean).map (fun q => q.1) := by
    intro hrc hmem
    obtain ⟨q2, hq2f, hq2key⟩ := List.mem_map.mp hmem
    obtain ⟨hq2mem, hq2flag⟩ := List.mem_filter.mp hq2f
    rw [hallrev q2 hq2mem hq2key, hrc] at hq2flag
    simp at hq2flag
  constructor
  · intro hrc
    exact ⟨hmemrev hrc, hnotpatch hrc⟩
  · intro hrc
    exact ⟨hmempatch hrc, hnotrev hrc⟩

/-- C3 witness: a non-English locale file marked modified is reverted,
never patched. -/
theorem classifyMain_modified_rule_witness :
    "locales/fr.json" ∈ (FileChanges.mk [] ["locales/fr.json"] []).modified ∧
    revertCondition "locales/fr.json" = true ∧
    ("locales/fr.json" ∈
      (classifyMain ⟨[], ["locales/fr.json"], []⟩ "" none none none).files_to_revert_to_clean ∧
     "locales/fr.json" ∉
      (classifyMain ⟨[], ["locales/fr.json"], []⟩ "" none none none).files_to_patch_modified) :=
  ⟨by decide, by decide,
   (classifyMain_modified_rule ⟨[], ["locales/fr.json"], []⟩ "" none none none
     "locales/fr.json" (by decide)).1 (by decide)⟩

/-- C3 (counterexample): for the nested path `locales/de/en.json` the
final path component is `en.json`, which does start with `en.`, so the
claim as stated places it in `files_to_patch_modified`; the code tests
the whole-path prefix `locales/en.` instead and reverts it. -/
theorem classifyMain_modified_rule_cex :
    pathName "locales/de/en.json" = "en.json" ∧
    pyStartsWith "en.json" "en." = true ∧
    pyStartsWith "locales/de/en.json" "locales/" = true ∧
    "locales/de/en.json" ∈
      (classifyMain ⟨[], ["locales/de/en.json"], []⟩ "" none none none).files_to_revert_to_clean ∧
    "locales/de/en.json" ∉
      (classifyMain ⟨[], ["locales/de/en.json"], []⟩ "" none none none).files_to_patch_modified := by
  refine ⟨rfl, rfl, rfl, ?_, ?_⟩ <;> decide

set_option maxRecDepth 4000 in
/-- C4: evaluation at the failing input.  The deleted dev/config path
`.gitignore` has a pure-deletion diff section (no `^\+[^+]` line), yet
the classifier reports `has_customizations = true`, because the
`re.DOTALL` search of line 210 starts its capture at the first
`diff --git` of the whole diff text and so absorbs the added lines of
the unrelated `assets/x.js` section that precedes it. -/
theorem removed_has_customizations_bug :
    hasAddedLine bugDiffOwnSection.data = false ∧
    diffSection bugFullDiff ".gitignore" = some bugFullDiff.data ∧
    ((classifyMain ⟨[], [], [".gitignore"]⟩ bugFullDiff none none none).categorized.removed_dawn_files.map
      fun f => (f.accept_dawn_15_4, f.should_restore, f.has_customizations)) =
      [(true, false, true)] ∧
    (classifyMain ⟨[], [], [".gitignore"]⟩ bugFullDiff none none none).files_to_patch_with_customizations =
      [".gitignore"] := by
  refine ⟨?_, ?_, ?_, ?_⟩ <;> decide

/-- Inside `pre ++ "*/" ++ rest`, the first occurrence of `*/` sits at
the end of `pre` whenever `pre` itself contains none (the two-character
marker cannot straddle the boundary: the straddling pairs would be
`*`-`*` or `/`-rest). -/
theorem findSub_marker (pre rest : List Char)
    (h : findSub pre ['*', '/'] = none) :
    findSub (pre ++ '*' :: '/' :: rest) ['*', '/'] = some pre.length := by
  induction pre with
  | nil => simp [findSub, List.isPrefixOf]
  | cons c t ih =>
    unfold findSub at h
    rw [List.cons_append]
    unfold findSub
    by_cases hpf : (['*', '/'] : List Char).isPrefixOf (c :: t)
    · rw [if_pos hpf] at h; cases h
    · rw [if_neg hpf] at h
      have ht : findSub t ['*', '/'] = none := by
        cases hfs : findSub t ['*', '/'] with
        | none => rfl
        | some n => rw [hfs] at h; cases h
      have hpf2 : ¬ (['*', '/'] : List Char).isPrefixOf
          (c :: (t ++ '*' :: '/' :: rest)) := by
        cases t with
        | nil => simp [List.isPrefixOf]
        | cons d t2 =>
          intro hcontra
          apply hpf
          rw [List.cons_append] at hcontra
          simp only [List.isPrefixOf, Bool.and_eq_true, beq_iff_eq] at hcontra ⊢
          exact ⟨hcontra.1, hcontra.2.1, trivial⟩
      rw [if_neg hpf2, ih ht]
      simp

/-- C5: when the content, stripped of leading whitespace, opens with a
`/*` comment block and contains a closer `*/` (decomposed as
`pre ++ "*/" ++ rest` with no earlier `*/`), `load_json` parses exactly
the stripped remainder after the first `*/`, and it errors exactly when
that remainder is not valid JSON for the parser. -/
theorem load_json_comment_strip (parse : String → Option Json)
    (s pre rest : String)
    (hdecomp : s = pre ++ "*/" ++ rest)
    (hstart : pyStartsWith (pyStrip s) "/*" = true)
    (hfirst : findSub pre.data "*/".data = none) :
    load_json parse s = parse (pyStrip rest) ∧
    (load_json parse s = none ↔ parse (pyStrip rest) = none) := by
  have hmarker : ("*/" : String).data = ['*', '/'] := rfl
  rw [hmarker] at hfirst
  have hdata : s.data = pre.data ++ '*' :: '/' :: rest.data := by
    rw [hdecomp]
    simp [String.data_append]
  have hfind : findSub s.data ['*', '/'] = some pre.data.length := by
    rw [hdata]; exact findSub_marker pre.data rest.data hfirst
  have hdrop : s.data.drop (pre.data.length + 2) = rest.data := by
    rw [hdata]
    have hassoc : pre.data ++ '*' :: '/' :: rest.data
        = (pre.data ++ ['*', '/']) ++ rest.data := by simp
    have hlen : (pre.data ++ ['*', '/']).length = pre.data.length + 2 := by
      simp
    rw [hassoc, ← hlen, List.drop_left]
  have hmain : load_json parse s = parse (pyStrip rest) := by
    unfold load_json stripLeadingCommentBlock
    simp only [hstart, if_true, hmarker, hfind, hdrop]
  exact ⟨hmain, by rw [hmain]⟩

/-- C5 witness: a concrete comment-prefixed document is parsed from its
remainder. -/
theorem load_json_comment_strip_witness :
    pyStartsWith (pyStrip "/* note */ 7") "/*" = true ∧
    load_json (fun t => if t == "7" then some (Json.num 7) else none)
      "/* note */ 7" = some (Json.num 7) := by
  refine ⟨by decide, ?_⟩
  have h := (load_json_comment_strip
    (fun t => if t == "7" then some (Json.num 7) else none)
    "/* note */ 7" "/* note " " 7" rfl (by decide) (by decide)).1
  rw [h]
  decide

/-- A successful `dict` lookup exhibits a member of the association
list. -/
theorem lookup_some_mem {β : Type} (k : String) (l : List (String × β)) (v : β)
    (h : l.lookup k = some v) : (k, v) ∈ l := by
  induction l with
  | nil => cases h
  | cons q t ih =>
    obtain ⟨k2, v2⟩ := q
    rw [List.lookup] at h
    by_cases hk : k == k2
    · rw [hk] at h
      simp only [Option.some.injEq] at h
      subst h
      exact (beq_iff_eq.mp hk) ▸ List.mem_cons_self _ _
    · rw [Bool.not_eq_true] at hk
      rw [hk] at h
      exact List.mem_cons_of_mem _ (ih h)

/-- Additions loop with the `custom_` guard (comparison 1 of the flat
analyzers): a record for a new key exists exactly when the key has the
prefix. -/
theorem mem_flatAdds_iff (base cur : JObj) (mk : String → Json → JObj)
    (hmk : ∀ k v, (mk k v).lookup "key" = some (.str k))
    (k : String) (hk : (cur.lookup k).isSome = true) (h10 : base.lookup k = none) :
    (∃ rec ∈ cur.filterMap (fun q =>
        if (base.lookup q.1).isNone then
          if pyStartsWith q.1 "custom_" then some (mk q.1 q.2) else none
        else none), rec.lookup "key" = some (.str k)) ↔
      pyStartsWith k "custom_" = true := by
  constructor
  · rintro ⟨rec, hrec, hkey⟩
    obtain ⟨q, hqmem, hq⟩ := List.mem_filterMap.mp hrec
    split at hq
    · split at hq
      · next hpre =>
        have hrec2 : rec = mk q.1 q.2 := (Option.some.inj hq).symm
        rw [hrec2, hmk] at hkey
        have : q.1 = k := Json.str.inj (Option.some.inj hkey)
        rwa [this] at hpre
      · cases hq
    · cases hq
  · intro hpre
    obtain ⟨v, hv⟩ := Option.isSome_iff_exists.mp hk
    have hmem := lookup_some_mem k cur v hv
    have hbody : (if (base.lookup k).isNone then
        if pyStartsWith k "custom_" then some (mk k v) else none
      else none) = some (mk k v) := by
      rw [h10]
      simp [hpre]
    exact ⟨mk k v, List.mem_filterMap.mpr ⟨(k, v), hmem, hbody⟩, hmk k v⟩

/-- Additions loop without a guard (comparisons 2 and 3 of the flat
analyzers): every new key yields a record. -/
theorem mem_flatAdds_all (base comp : JObj) (mk : String → Json → JObj)
    (hmk : ∀ k v, (mk k v).lookup "key" = some (.str k))
    (k : String) (hk : (comp.lookup k).isSome = true) (hb : base.lookup k = none) :
    ∃ rec ∈ comp.filterMap (fun q =>
        if (base.lookup q.1).isNone then some (mk q.1 q.2) else none),
      rec.lookup "key" = some (.str k) := by
  obtain ⟨v, hv⟩ := Option.isSome_iff_exists.mp hk
  have hmem := lookup_some_mem k comp v hv
  have hbody : (if (base.lookup k).isNone then some (mk k v) else none)
      = some (mk k v) := by
    rw [hb]; rfl
  exact ⟨mk k v, List.mem_filterMap.mpr ⟨(k, v), hmem, hbody⟩, hmk k v⟩

/-- A modifications loop never produces a record for a key absent from
its base snapshot. -/
theorem mods_no_new_key (base cur : JObj) (g : String × Json → Option JObj)
    (hg : ∀ q r, g q = some r →
      r.lookup "key" = some (.str q.1) ∧ (base.lookup q.1).isSome = true)
    (k : String) (hb : base.lookup k = none) :
    ∀ rec ∈ cur.filterMap g, rec.lookup "key" ≠ some (.str k) := by
  intro rec hrec hkey
  obtain ⟨q, hqmem, hq⟩ := List.mem_filterMap.mp hrec
  obtain ⟨hk1, hk2⟩ := hg q rec hq
  rw [hk1] at hkey
  have : q.1 = k := Json.str.inj (Option.some.inj hkey)
  rw [this, hb] at hk2
  cases hk2

/-- C9: in the old-upstream vs custom comparison only, the flat
analyzers (`analyze_locale` and `analyze_settings_data`) report a key
present in the custom snapshot but absent from the old-upstream one as a
custom addition exactly when it starts with `custom_`; an unprefixed new
key appears in neither the additions nor the modifications of that pair.
In the other two comparisons every new key is reported as an addition. -/
theorem flat_custom_prefix_rule (v10 cur v15 : JObj) :
    (∀ k : String, (cur.lookup k).isSome = true → v10.lookup k = none →
      (((∃ rec ∈ (analyze_locale v10 cur v15).v10_upstream_vs_v10_custom.custom_additions,
          rec.lookup "key" = some (.str k)) ↔ pyStartsWith k "custom_" = true) ∧
       (∀ rec ∈ (analyze_locale v10 cur v15).v10_upstream_vs_v10_custom.modifications,
          rec.lookup "key" ≠ some (.str k)) ∧
       ((∃ rec ∈ (analyze_settings_data v10 cur v15).v10_upstream_vs_v10_custom.custom_additions,
          rec.lookup "key" = some (.str k)) ↔ pyStartsWith k "custom_" = true) ∧
       (∀ rec ∈ (analyze_settings_data v10 cur v15).v10_upstream_vs_v10_custom.modifications,
          rec.lookup "key" ≠ some (.str k)))) ∧
    (∀ k : String, (v15.lookup k).isSome = true → v10.lookup k = none →
      ((∃ rec ∈ (analyze_locale v10 cur v15).v10_upstream_vs_v15_upstream.dawn_additions,
          rec.lookup "key" = some (.str k)) ∧
       (∃ rec ∈ (analyze_settings_data v10 cur v15).v10_upstream_vs_v15_upstream.dawn_additions,
          rec.lookup "key" = some (.str k)))) ∧
    (∀ k : String, (v15.lookup k).isSome = true → cur.lookup k = none →
      ((∃ rec ∈ (analyze_locale v10 cur v15).v10_custom_vs_v15_upstream.conflict_additions,
          rec.lookup "key" = some (.str k)) ∧
       (∃ rec ∈ (analyze_settings_data v10 cur v15).v10_custom_vs_v15_upstream.conflict_additions,
          rec.lookup "key" = some (.str k)))) := by
  refine ⟨?_, ?_, ?_⟩
  · intro k hk h10
    refine ⟨?_, ?_, ?_, ?_⟩
    · exact mem_flatAdds_iff v10 cur
        (fun k v => flatAddRecord k v "v10_upstream_vs_v10_custom"
          ("Custom translation key: " ++ k))
        (fun k v => rfl) k hk h10
    · refine mods_no_new_key v10 cur _ ?_ k h10
      intro q r hq
      cases hb2 : v10.lookup q.1 with
      | none => simp only [hb2] at hq; exact Option.noConfusion hq
      | some v0 =>
        simp only [hb2] at hq
        split at hq
        · refine ⟨?_, rfl⟩
          rw [← Option.some.inj hq]
          rfl
        · cases hq
    · exact mem_flatAdds_iff v10 cur
        (fun k v => flatAddRecord k v "v10_upstream_vs_v10_custom"
          ("Custom setting value: " ++ k))
        (fun k v => rfl) k hk h10
    · refine mods_no_new_key v10 cur _ ?_ k h10
      intro q r hq
      cases hb2 : v10.lookup q.1 with
      | none => simp only [hb2] at hq; exact Option.noConfusion hq
      | some v0 =>
        simp only [hb2] at hq
        split at hq
        · split at hq
          · refine ⟨?_, rfl⟩
            rw [← Option.some.inj hq]
            rfl
          · cases hq
        · cases hq
  · intro k hk h10
    constructor
    · exact mem_flatAdds_all v10 v15
        (fun k v => flatAddRecord k v "v10_upstream_vs_v15_upstream"
          ("Dawn 15.4.0 added translation key: " ++ k))
        (fun k v => rfl) k hk h10
    · exact mem_flatAdds_all v10 v15
        (fun k v => flatAddRecord k v "v10_upstream_vs_v15_upstream"
          ("Dawn 15.4.0 added setting value: " ++ k))
        (fun k v => rfl) k hk h10
  · intro k hk hcur
    constructor
    · exact mem_flatAdds_all cur v15
        (fun k v => flatAddRecord k v "v10_custom_vs_v15_upstream"
          ("Conflict: Dawn 15.4.0 has translation key " ++ k ++
            " that we don\x27t have"))
        (fun k v => rfl) k hk hcur
    · exact mem_flatAdds_all cur v15
        (fun k v => flatAddRecord k v "v10_custom_vs_v15_upstream"
          ("Conflict: Dawn 15.4.0 has setting value " ++ k ++
            " that we don\x27t have"))
        (fun k v => rfl) k hk hcur

/-- C9 witness: at the concrete snapshots, the prefixed new key
`custom_c` is reported as a pair-1 custom addition. -/
theorem flat_custom_prefix_rule_witness :
    (wLocaleCur.lookup "custom_c").isSome = true ∧
    (∃ rec ∈ (analyze_locale wLocaleV10 wLocaleCur wLocaleV15).v10_upstream_vs_v10_custom.custom_additions,
      rec.lookup "key" = some (.str "custom_c")) :=
  ⟨by decide,
   (((flat_custom_prefix_rule wLocaleV10 wLocaleCur wLocaleV15).1 "custom_c"
      (by decide) (by decide)).1).mpr (by decide)⟩

/-- A successful `optionMapM` collects exactly the (all-successful)
images, in order. -/
theorem optionMapM_eq_filterMap {α β : Type} (f : α → Option β) (l : List α)
    (out : List β) (h : optionMapM f l = some out) : out = l.filterMap f := by
  induction l generalizing out with
  | nil =>
    obtain rfl : [] = out := Option.some.inj h
    rfl
  | cons a t ih =>
    unfold optionMapM at h
    cases hfa : f a with
    | none => rw [hfa] at h; cases h
    | some b =>
      rw [hfa] at h
      cases hft : optionMapM f t with
      | none => rw [hft] at h; cases h
      | some bs =>
        rw [hft] at h
        obtain rfl : b :: bs = out := Option.some.inj h
        simp [List.filterMap_cons, hfa, ih bs hft]

/-- Every input of a successful `optionMapM` contributes an element of
the output. -/
theorem optionMapM_mem {α β : Type} (f : α → Option β) (l : List α)
    (out : List β) (h : optionMapM f l = some out) :
    ∀ x ∈ l, ∃ y, f x = some y ∧ y ∈ out := by
  induction l generalizing out with
  | nil => intro x hx; cases hx
  | cons a t ih =>
    intro x hx
    unfold optionMapM at h
    cases hfa : f a with
    | none => rw [hfa] at h; cases h
    | some b =>
      rw [hfa] at h
      cases hft : optionMapM f t with
      | none => rw [hft] at h; cases h
      | some bs =>
        rw [hft] at h
        obtain rfl : b :: bs = out := Option.some.inj h
        rcases List.mem_cons.mp hx with rfl | hxt
        · exact ⟨b, hfa, List.mem_cons_self _ _⟩
        · obtain ⟨y, hy1, hy2⟩ := ih bs hft x hxt
          exact ⟨y, hy1, List.mem_cons_of_mem _ hy2⟩

/-- Every output of a successful `optionMapM` comes from an input. -/
theorem optionMapM_mem_rev {α β : Type} (f : α → Option β) (l : List α)
    (out : List β) (h : optionMapM f l = some out) :
    ∀ y ∈ out, ∃ x ∈ l, f x = some y := by
  intro y hy
  rw [optionMapM_eq_filterMap f l out h] at hy
  exact List.mem_filterMap.mp hy

/-- `optionMapM` succeeds when every element succeeds. -/
theorem optionMapM_isSome {α β : Type} (f : α → Option β) (l : List α)
    (h : ∀ x ∈ l, (f x).isSome = true) : (optionMapM f l).isSome = true := by
  induction l with
  | nil => rfl
  | cons a t ih =>
    have ha := h a (List.mem_cons_self _ _)
    unfold optionMapM
    cases hfa : f a with
    | none => rw [hfa] at ha; simp at ha
    | some b =>
      cases hft : optionMapM f t with
      | none =>
        have hs := ih fun x hx => h x (List.mem_cons_of_mem _ hx)
        rw [hft] at hs
        simp at hs
      | some bs => rfl

/-- Key membership in a JSON-keyed dict, phrased through `jkeys`. -/
theorem jmem_iff (k : Json) (m : JMap) : jmem k m = true ↔ k ∈ jkeys m := by
  unfold jmem jkeys
  rw [List.any_eq_true]
  constructor
  · rintro ⟨q, hq, hqk⟩
    have hqk2 : q.1 = k := beq_iff_eq.mp hqk
    exact List.mem_map.mpr ⟨q, hq, hqk2⟩
  · intro hk
    obtain ⟨q, hq, hqk⟩ := List.mem_map.mp hk
    refine ⟨q, hq, ?_⟩
    exact beq_iff_eq.mpr hqk

/-- A present key's `jview` is the value stored for it. -/
theorem jview_mem (k : Json) (m : JMap) (hk : jmem k m = true) :
    ∃ q ∈ m, q.1 = k ∧ jview m k = q.2 := by
  unfold jview
  cases hf : m.find? fun q => q.1 == k with
  | none =>
    exfalso
    obtain ⟨q, hq, hqk⟩ := List.any_eq_true.mp hk
    have hsome : (List.find? (fun q => q.1 == k) m).isSome :=
      List.find?_isSome.mpr ⟨q, hq, hqk⟩
    rw [hf] at hsome
    cases hsome
  | some q =>
    have hp0 := List.find?_some hf
    have hp : (q.1 == k) = true := hp0
    exact ⟨q, List.mem_of_find?_eq_some hf, beq_iff_eq.mp hp, rfl⟩

/-- All per-entry addition records of a common-section block carry that
block's section in their `section` field. -/
theorem commonBlock_adds_section (dd : DeepDiffFn) (inter : InterFn)
    (mkAdd : Json → Json → JObj → JObj) (mkMod : Json → Json → JObj → String → JObj)
    (baseM compM : JMap) (n : Json) (p : List JObj × List JObj)
    (h : commonBlock dd inter mkAdd mkMod baseM compM n = some p)
    (hmk : ∀ i s, (mkAdd n i s).lookup "section" = some n) :
    ∀ rec ∈ p.1, rec.lookup "section" = some n := by
  unfold commonBlock at h
  split at h
  · cases h
  · obtain rfl := (Option.some.inj h).symm
    intro rec hrec
    obtain ⟨q, hqmem, hq⟩ := List.mem_filterMap.mp hrec
    split at hq
    · cases hq
    · rw [← Option.some.inj hq]
      exact hmk q.1 q.2

/-- C1 (amended): whenever a section name is present in the compare
snapshot but absent from the base one, the first pair reports both the
whole-section record and an individual addition record for every
id-carrying entry of the section, while the second and third pairs
report only the whole-section record: no record of their additions
lists names the new section in a `section` field (per-entry records
there arise only from sections present in both snapshots). -/
theorem analyze_schema_new_sections (dd : DeepDiffFn) (inter : InterFn)
    (hinter : InterAdmissible inter) (v10 cur v15 : List JObj)
    (r : SchemaAnalysis)
    (h : analyze_settings_schema dd inter v10 cur v15 = some r)
    (mv10 mcur mv15 : JMap)
    (h10 : buildSectionMap v10 = some mv10)
    (hcur : buildSectionMap cur = some mcur)
    (h15 : buildSectionMap v15 = some mv15) :
    (∀ n, jmem n mcur = true → jmem n mv10 = false →
      secRec1 n ∈ r.v10_upstream_vs_v10_custom.custom_sections ∧
      ∀ ss, getSettings (jview mcur n) = some ss →
        ∀ s ∈ ss, (pyGet s "id").truthy = true →
          addRec1 n (pyGet s "id") s ∈ r.v10_upstream_vs_v10_custom.custom_additions) ∧
    (∀ n, jmem n mv15 = true → jmem n mv10 = false →
      secRec2 n ∈ r.v10_upstream_vs_v15_upstream.dawn_additions ∧
      ∀ rec ∈ r.v10_upstream_vs_v15_upstream.dawn_additions,
        rec.lookup "section" ≠ some n) ∧
    (∀ n, jmem n mv15 = true → jmem n mcur = false →
      secRec3 n ∈ r.v10_custom_vs_v15_upstream.conflict_additions ∧
      ∀ rec ∈ r.v10_custom_vs_v15_upstream.conflict_additions,
        rec.lookup "section" ≠ some n) := by
  simp only [analyze_settings_schema, h10, hcur, h15] at h
  cases hA : optionMapM (newSectionEntries1 mcur)
      ((jkeys mcur).filter fun n => !jmem n mv10) with
  | none => rw [hA] at h; cases h
  | some newAdds1 =>
  simp only [hA] at h
  cases hB : optionMapM (commonBlock dd inter addRec1 modRec1 mv10 mcur)
      (inter (jkeys mv10) (jkeys mcur)) with
  | none => rw [hB] at h; cases h
  | some blocks1 =>
  simp only [hB] at h
  cases hC : optionMapM (commonBlock dd inter addRec2 modRec2 mv10 mv15)
      (inter (jkeys mv10) (jkeys mv15)) with
  | none => rw [hC] at h; cases h
  | some blocks2 =>
  simp only [hC] at h
  cases hD : optionMapM (commonBlock dd inter addRec3 modRec3 mcur mv15)
      (inter (jkeys mcur) (jkeys mv15)) with
  | none => rw [hD] at h; cases h
  | some blocks3 =>
  simp only [hD] at h
  obtain rfl := (Option.some.inj h).symm
  refine ⟨?_, ?_, ?_⟩
  · intro n hmemcur hmem10
    have hn1 : n ∈ (jkeys mcur).filter fun n => !jmem n mv10 := by
      rw [List.mem_filter]
      exact ⟨(jmem_iff n mcur).mp hmemcur, by rw [hmem10]; rfl⟩
    constructor
    · exact List.mem_map.mpr ⟨n, hn1, rfl⟩
    · intro ss hss s hs hid
      obtain ⟨block, hfb, hbmem⟩ := optionMapM_mem _ _ _ hA n hn1
      unfold newSectionEntries1 at hfb
      simp only [hss] at hfb
      obtain rfl := (Option.some.inj hfb).symm
      have hrec : addRec1 n (pyGet s "id") s ∈ ss.filterMap fun s =>
          if (pyGet s "id").truthy then some (addRec1 n (pyGet s "id") s) else none :=
        List.mem_filterMap.mpr ⟨s, hs, by rw [hid]; rfl⟩
      exact List.mem_append.mpr (Or.inl (List.mem_flatten.mpr ⟨_, hbmem, hrec⟩))
  · intro n hmem15 hmem10
    have hn2 : n ∈ (jkeys mv15).filter fun n => !jmem n mv10 := by
      rw [List.mem_filter]
      exact ⟨(jmem_iff n mv15).mp hmem15, by rw [hmem10]; rfl⟩
    constructor
    · exact List.mem_append.mpr (Or.inl (List.mem_map.mpr ⟨n, hn2, rfl⟩))
    · intro rec hrec hsec
      rcases List.mem_append.mp hrec with hl | hr2
      · obtain ⟨n2, hn2mem, rfl⟩ := List.mem_map.mp hl
        simp [secRec2, List.lookup] at hsec
      · obtain ⟨adds, haddsm, hrecadds⟩ := List.mem_flatten.mp hr2
        obtain ⟨blk, hblkmem, rfl⟩ := List.mem_map.mp haddsm
        obtain ⟨n2, hn2i, hblk⟩ := optionMapM_mem_rev _ _ _ hC blk hblkmem
        have hsec2 := commonBlock_adds_section dd inter addRec2 modRec2 mv10 mv15
          n2 blk hblk (fun i s => rfl) rec hrecadds
        rw [hsec2] at hsec
        obtain rfl : n2 = n := Option.some.inj hsec
        have hfmem : n2 ∈ (jkeys mv10).filter fun k => (jkeys mv15).contains k :=
          ((hinter (jkeys mv10) (jkeys mv15)).mem_iff).mp hn2i
        have : jmem n2 mv10 = true :=
          (jmem_iff _ _).mpr (List.mem_filter.mp hfmem).1
        rw [hmem10] at this
        cases this
  · intro n hmem15 hmemcur
    have hn3 : n ∈ (jkeys mv15).filter fun n => !jmem n mcur := by
      rw [List.mem_filter]
      exact ⟨(jmem_iff n mv15).mp hmem15, by rw [hmemcur]; rfl⟩
    constructor
    · exact List.mem_append.mpr (Or.inl (List.mem_map.mpr ⟨n, hn3, rfl⟩))
    · intro rec hrec hsec
      rcases List.mem_append.mp hrec with hl | hr2
      · obtain ⟨n2, hn2mem, rfl⟩ := List.mem_map.mp hl
        simp [secRec3, List.lookup] at hsec
      · obtain ⟨adds, haddsm, hrecadds⟩ := List.mem_flatten.mp hr2
        obtain ⟨blk, hblkmem, rfl⟩ := List.mem_map.mp haddsm
        obtain ⟨n2, hn2i, hblk⟩ := optionMapM_mem_rev _ _ _ hD blk hblkmem
        have hsec2 := commonBlock_adds_section dd inter addRec3 modRec3 mcur mv15
          n2 blk hblk (fun i s => rfl) rec hrecadds
        rw [hsec2] at hsec
        obtain rfl : n2 = n := Option.some.inj hsec
        have hfmem : n2 ∈ (jkeys mcur).filter fun k => (jkeys mv15).contains k :=
          ((hinter (jkeys mcur) (jkeys mv15)).mem_iff).mp hn2i
        have : jmem n2 mcur = true :=
          (jmem_iff _ _).mpr (List.mem_filter.mp hfmem).1
        rw [hmemcur] at this
        cases this

/-- The canonical intersection order is admissible. -/
theorem interCanonical_admissible : InterAdmissible interCanonical :=
  fun _ _ => List.Perm.refl _

/-- The reversed intersection order is admissible. -/
theorem interReversed_admissible : InterAdmissible interReversed :=
  fun _ _ => List.reverse_perm _

/-- C1 (counterexample): with the section `s` (carrying the id-labelled
entry `x`) present only in the new-upstream snapshot, the second pair's
additions list holds exactly the whole-section record — no record with
an `id` field, although the section has an id-carrying entry.  The
claim as stated requires an individual entry-addition record in this
pair too. -/
theorem analyze_schema_new_sections_cex :
    (getSettings newSecInput).map (fun ss => ss.map fun s => (pyGet s "id").truthy)
      = some [true] ∧
    (analyze_settings_schema ddStructural interCanonical [] [] [newSecInput]).map
        (fun r => r.v10_upstream_vs_v15_upstream.dawn_additions)
      = some [secRec2 (.str "s")] ∧
    (analyze_settings_schema ddStructural interCanonical [] [] [newSecInput]).map
        (fun r => r.v10_upstream_vs_v15_upstream.dawn_additions.any
          fun rec => (rec.lookup "id").isSome)
      = some false := by
  refine ⟨?_, ?_, ?_⟩ <;> rfl

/-- C1 witness: with section `s` present only in the custom snapshot,
the first pair reports the whole-section record (and, by the same
theorem, the per-entry record for `x`). -/
theorem analyze_schema_new_sections_witness :
    InterAdmissible interCanonical ∧
    jmem (.str "s") [(Json.str "s", newSecInput)] = true ∧
    secRec1 (.str "s") ∈
      ((analyze_settings_schema ddStructural interCanonical [] [newSecInput] []).getD
        default).v10_upstream_vs_v10_custom.custom_sections ∧
    addRec1 (.str "s") (.str "x") [("id", .str "x"), ("type", .str "checkbox")] ∈
      ((analyze_settings_schema ddStructural interCanonical [] [newSecInput] []).getD
        default).v10_upstream_vs_v10_custom.custom_additions := by
  have h := analyze_schema_new_sections ddStructural interCanonical
    interCanonical_admissible [] [newSecInput] [] _ rfl
    [] [(Json.str "s", newSecInput)] [] rfl rfl rfl
  have h1 := (h.1 (Json.str "s") rfl rfl).1
  have h2 := (h.1 (Json.str "s") rfl rfl).2
    [[("id", Json.str "x"), ("type", Json.str "checkbox")]] rfl
    [("id", Json.str "x"), ("type", Json.str "checkbox")] (by decide) rfl
  exact ⟨interCanonical_admissible, rfl, h1, h2⟩

/-- The per-entry additions of a common-section block do not depend on
the intersection-iteration order. -/
theorem commonBlock_fst_inter (dd : DeepDiffFn) (i1 i2 : InterFn)
    (mkAdd : Json → Json → JObj → JObj) (mkMod : Json → Json → JObj → String → JObj)
    (b c : JMap) (n : Json) :
    (commonBlock dd i1 mkAdd mkMod b c n).map Prod.fst =
      (commonBlock dd i2 mkAdd mkMod b c n).map Prod.fst := by
  unfold commonBlock
  cases sectionMapsOf b c n with
  | none => rfl
  | some p => cases p; rfl

/-- The modification records of a common-section block are a
permutation across admissible intersection orders. -/
theorem blockMods_perm (dd : DeepDiffFn) (i1 i2 : InterFn)
    (h1 : InterAdmissible i1) (h2 : InterAdmissible i2)
    (mkMod : Json → Json → JObj → String → JObj) (bi ci : JMap) (n : Json) :
    (blockMods dd i1 mkMod bi ci n).Perm (blockMods dd i2 mkMod bi ci n) := by
  unfold blockMods
  exact List.Perm.filterMap _ ((h1 _ _).trans (h2 _ _).symm)

/-- A common-section block fails independently of the intersection
order, and on success its additions agree and its modifications are a
permutation. -/
theorem commonBlock_rel (dd : DeepDiffFn) (i1 i2 : InterFn)
    (h1 : InterAdmissible i1) (h2 : InterAdmissible i2)
    (mkAdd : Json → Json → JObj → JObj) (mkMod : Json → Json → JObj → String → JObj)
    (b c : JMap) (n : Json) :
    (commonBlock dd i1 mkAdd mkMod b c n = none ∧
      commonBlock dd i2 mkAdd mkMod b c n = none) ∨
    (∃ p1 p2, commonBlock dd i1 mkAdd mkMod b c n = some p1 ∧
      commonBlock dd i2 mkAdd mkMod b c n = some p2 ∧
      p1.1 = p2.1 ∧ p1.2.Perm p2.2) := by
  unfold commonBlock
  cases sectionMapsOf b c n with
  | none => exact Or.inl ⟨rfl, rfl⟩
  | some p =>
    obtain ⟨bi, ci⟩ := p
    exact Or.inr ⟨_, _, rfl, rfl, rfl, blockMods_perm dd i1 i2 h1 h2 mkMod bi ci n⟩

/-- Flattened filterMaps over pointwise option-related functions are
permutations. -/
theorem flatten_filterMap_rel {α : Type} (l : List α)
    (f1 f2 : α → Option (List JObj))
    (hrel : ∀ x ∈ l, (f1 x = none ∧ f2 x = none) ∨
      ∃ y1 y2, f1 x = some y1 ∧ f2 x = some y2 ∧ y1.Perm y2) :
    (l.filterMap f1).flatten.Perm (l.filterMap f2).flatten := by
  induction l with
  | nil => exact List.Perm.refl _
  | cons a t ih =>
    have iht := ih fun x hx => hrel x (List.mem_cons_of_mem _ hx)
    rcases hrel a (List.mem_cons_self _ _) with ⟨ha1, ha2⟩ | ⟨y1, y2, ha1, ha2, hp⟩
    · simpa [List.filterMap_cons, ha1, ha2] using iht
    · simpa [List.filterMap_cons, ha1, ha2, List.flatten_cons] using hp.append iht

/-- Inversion of a successful run of the schema comparator: names for
every intermediate stage and the explicit shape of the result. -/
theorem analyze_schema_inversion (dd : DeepDiffFn) (inter : InterFn)
    (v10 cur v15 : List JObj) (r : SchemaAnalysis)
    (h : analyze_settings_schema dd inter v10 cur v15 = some r) :
    ∃ mv10 mcur mv15 newAdds1 blocks1 blocks2 blocks3,
      buildSectionMap v10 = some mv10 ∧
      buildSectionMap cur = some mcur ∧
      buildSectionMap v15 = some mv15 ∧
      optionMapM (newSectionEntries1 mcur)
        ((jkeys mcur).filter fun n => !jmem n mv10) = some newAdds1 ∧
      optionMapM (commonBlock dd inter addRec1 modRec1 mv10 mcur)
        (inter (jkeys mv10) (jkeys mcur)) = some blocks1 ∧
      optionMapM (commonBlock dd inter addRec2 modRec2 mv10 mv15)
        (inter (jkeys mv10) (jkeys mv15)) = some blocks2 ∧
      optionMapM (commonBlock dd inter addRec3 modRec3 mcur mv15)
        (inter (jkeys mcur) (jkeys mv15)) = some blocks3 ∧
      r = { v10_upstream_vs_v10_custom :=
            { custom_additions := newAdds1.flatten ++ (blocks1.map Prod.fst).flatten
              modifications := (blocks1.map Prod.snd).flatten
              removals := []
              custom_sections :=
                ((jkeys mcur).filter fun n => !jmem n mv10).map secRec1 }
            v10_upstream_vs_v15_upstream :=
            { dawn_additions :=
                ((jkeys mv15).filter fun n => !jmem n mv10).map secRec2 ++
                  (blocks2.map Prod.fst).flatten
              dawn_modifications := (blocks2.map Prod.snd).flatten
              dawn_removals := [] }
            v10_custom_vs_v15_upstream :=
            { conflict_additions :=
                ((jkeys mv15).filter fun n => !jmem n mcur).map secRec3 ++
                  (blocks3.map Prod.fst).flatten
              conflict_modifications := (blocks3.map Prod.snd).flatten
              conflict_removals := [] }
            theme_info_changes := themeInfoChanges
              ((v10.find? fun it => pyGet it "name" == Json.str "theme_info").getD [])
              ((cur.find? fun it => pyGet it "name" == Json.str "theme_info").getD [])
              ((v15.find? fun it => pyGet it "name" == Json.str "theme_info").getD []) } := by
  unfold analyze_settings_schema at h
  cases h10 : buildSectionMap v10 with
  | none => rw [h10] at h; cases h
  | some mv10 =>
  simp only [h10] at h
  cases hcur : buildSectionMap cur with
  | none => rw [hcur] at h; cases h
  | some mcur =>
  simp only [hcur] at h
  cases h15 : buildSectionMap v15 with
  | none => rw [h15] at h; cases h
  | some mv15 =>
  simp only [h15] at h
  cases hA : optionMapM (newSectionEntries1 mcur)
      ((jkeys mcur).filter fun n => !jmem n mv10) with
  | none => rw [hA] at h; cases h
  | some newAdds1 =>
  simp only [hA] at h
  cases hB : optionMapM (commonBlock dd inter addRec1 modRec1 mv10 mcur)
      (inter (jkeys mv10) (jkeys mcur)) with
  | none => rw [hB] at h; cases h
  | some blocks1 =>
  simp only [hB] at h
  cases hC : optionMapM (commonBlock dd inter addRec2 modRec2 mv10 mv15)
      (inter (jkeys mv10) (jkeys mv15)) with
  | none => rw [hC] at h; cases h
  | some blocks2 =>
  simp only [hC] at h
  cases hD : optionMapM (commonBlock dd inter addRec3 modRec3 mcur mv15)
      (inter (jkeys mcur) (jkeys mv15)) with
  | none => rw [hD] at h; cases h
  | some blocks3 =>
  simp only [hD] at h
  exact ⟨mv10, mcur, mv15, newAdds1, blocks1, blocks2, blocks3,
    rfl, rfl, rfl, hA, hB, hC, hD, (Option.some.inj h).symm⟩

/-- One pair's flattened per-entry additions agree up to permutation
across two admissible intersection orders. -/
theorem pair_adds_perm (dd : DeepDiffFn) (i1 i2 : InterFn)
    (h1 : InterAdmissible i1) (h2 : InterAdmissible i2)
    (mkAdd : Json → Json → JObj → JObj) (mkMod : Json → Json → JObj → String → JObj)
    (b c : JMap) (blocks1 blocks2 : List (List JObj × List JObj))
    (hb1 : optionMapM (commonBlock dd i1 mkAdd mkMod b c) (i1 (jkeys b) (jkeys c))
      = some blocks1)
    (hb2 : optionMapM (commonBlock dd i2 mkAdd mkMod b c) (i2 (jkeys b) (jkeys c))
      = some blocks2) :
    (blocks1.map Prod.fst).flatten.Perm (blocks2.map Prod.fst).flatten := by
  rw [optionMapM_eq_filterMap _ _ _ hb1, optionMapM_eq_filterMap _ _ _ hb2]
  rw [List.map_filterMap, List.map_filterMap]
  have hfun : (fun x => (commonBlock dd i1 mkAdd mkMod b c x).map Prod.fst)
      = fun x => (commonBlock dd i2 mkAdd mkMod b c x).map Prod.fst := by
    funext x
    exact commonBlock_fst_inter dd i1 i2 mkAdd mkMod b c x
  rw [hfun]
  have hl : (i1 (jkeys b) (jkeys c)).Perm (i2 (jkeys b) (jkeys c)) :=
    (h1 _ _).trans (h2 _ _).symm
  exact (hl.filterMap _).flatten

/-- One pair's flattened modification records agree up to permutation
across two admissible intersection orders. -/
theorem pair_mods_perm (dd : DeepDiffFn) (i1 i2 : InterFn)
    (h1 : InterAdmissible i1) (h2 : InterAdmissible i2)
    (mkAdd : Json → Json → JObj → JObj) (mkMod : Json → Json → JObj → String → JObj)
    (b c : JMap) (blocks1 blocks2 : List (List JObj × List JObj))
    (hb1 : optionMapM (commonBlock dd i1 mkAdd mkMod b c) (i1 (jkeys b) (jkeys c))
      = some blocks1)
    (hb2 : optionMapM (commonBlock dd i2 mkAdd mkMod b c) (i2 (jkeys b) (jkeys c))
      = some blocks2) :
    (blocks1.map Prod.snd).flatten.Perm (blocks2.map Prod.snd).flatten := by
  rw [optionMapM_eq_filterMap _ _ _ hb1, optionMapM_eq_filterMap _ _ _ hb2]
  rw [List.map_filterMap, List.map_filterMap]
  have hstep1 : ((i1 (jkeys b) (jkeys c)).filterMap
      (fun x => (commonBlock dd i1 mkAdd mkMod b c x).map Prod.snd)).flatten.Perm
      ((i1 (jkeys b) (jkeys c)).filterMap
      (fun x => (commonBlock dd i2 mkAdd mkMod b c x).map Prod.snd)).flatten := by
    apply flatten_filterMap_rel
    intro x _
    rcases commonBlock_rel dd i1 i2 h1 h2 mkAdd mkMod b c x with
      ⟨hn1, hn2⟩ | ⟨p1, p2, hp1, hp2, _, hperm⟩
    · exact Or.inl ⟨by rw [hn1]; rfl, by rw [hn2]; rfl⟩
    · exact Or.inr ⟨p1.2, p2.2, by rw [hp1]; rfl, by rw [hp2]; rfl, hperm⟩
  have hl : (i1 (jkeys b) (jkeys c)).Perm (i2 (jkeys b) (jkeys c)) :=
    (h1 _ _).trans (h2 _ _).symm
  exact hstep1.trans ((hl.filterMap _).flatten)

/-- C8 (amended): with the intersection-iteration order fixed the
comparator is a function of its inputs, and across different admissible
orders (as realized by different interpreter processes under hash
randomization) the outputs agree up to a permutation of each record
list: the whole-section lists, removals and theme-info records are
identical, while the per-entry additions and modification lists of each
pair are permutations of one another. -/
theorem analyze_schema_order_perm (dd : DeepDiffFn) (i1 i2 : InterFn)
    (h1 : InterAdmissible i1) (h2 : InterAdmissible i2)
    (v10 cur v15 : List JObj) (r1 r2 : SchemaAnalysis)
    (ha : analyze_settings_schema dd i1 v10 cur v15 = some r1)
    (hb : analyze_settings_schema dd i2 v10 cur v15 = some r2) :
    r1.v10_upstream_vs_v10_custom.custom_sections =
      r2.v10_upstream_vs_v10_custom.custom_sections ∧
    r1.v10_upstream_vs_v10_custom.custom_additions.Perm
      r2.v10_upstream_vs_v10_custom.custom_additions ∧
    r1.v10_upstream_vs_v10_custom.modifications.Perm
      r2.v10_upstream_vs_v10_custom.modifications ∧
    r1.v10_upstream_vs_v10_custom.removals =
      r2.v10_upstream_vs_v10_custom.removals ∧
    r1.v10_upstream_vs_v15_upstream.dawn_additions.Perm
      r2.v10_upstream_vs_v15_upstream.dawn_additions ∧
    r1.v10_upstream_vs_v15_upstream.dawn_modifications.Perm
      r2.v10_upstream_vs_v15_upstream.dawn_modifications ∧
    r1.v10_upstream_vs_v15_upstream.dawn_removals =
      r2.v10_upstream_vs_v15_upstream.dawn_removals ∧
    r1.v10_custom_vs_v15_upstream.conflict_additions.Perm
      r2.v10_custom_vs_v15_upstream.conflict_additions ∧
    r1.v10_custom_vs_v15_upstream.conflict_modifications.Perm
      r2.v10_custom_vs_v15_upstream.conflict_modifications ∧
    r1.v10_custom_vs_v15_upstream.conflict_removals =
      r2.v10_custom_vs_v15_upstream.conflict_removals ∧
    r1.theme_info_changes = r2.theme_info_changes := by
  obtain ⟨mv10, mcur, mv15, newAdds1a, blocks1a, blocks2a, blocks3a,
    h10a, hcura, h15a, hAa, hBa, hCa, hDa, hra⟩ :=
    analyze_schema_inversion dd i1 v10 cur v15 r1 ha
  obtain ⟨mv10b, mcurb, mv15b, newAdds1b, blocks1b, blocks2b, blocks3b,
    h10b, hcurb, h15b, hAb, hBb, hCb, hDb, hrb⟩ :=
    analyze_schema_inversion dd i2 v10 cur v15 r2 hb
  obtain rfl : mv10b = mv10 := by rw [h10a] at h10b; exact (Option.some.inj h10b).symm
  obtain rfl : mcurb = mcur := by rw [hcura] at hcurb; exact (Option.some.inj hcurb).symm
  obtain rfl : mv15b = mv15 := by rw [h15a] at h15b; exact (Option.some.inj h15b).symm
  obtain rfl : newAdds1b = newAdds1a := by
    rw [hAa] at hAb; exact (Option.some.inj hAb).symm
  subst hra hrb
  refine ⟨rfl, ?_, ?_, rfl, ?_, ?_, rfl, ?_, ?_, rfl, rfl⟩
  · exact List.Perm.append_left _
      (pair_adds_perm dd i1 i2 h1 h2 addRec1 modRec1 _ _ blocks1a blocks1b hBa hBb)
  · exact pair_mods_perm dd i1 i2 h1 h2 addRec1 modRec1 _ _ blocks1a blocks1b hBa hBb
  · exact List.Perm.append_left _
      (pair_adds_perm dd i1 i2 h1 h2 addRec2 modRec2 _ _ blocks2a blocks2b hCa hCb)
  · exact pair_mods_perm dd i1 i2 h1 h2 addRec2 modRec2 _ _ blocks2a blocks2b hCa hCb
  · exact List.Perm.append_left _
      (pair_adds_perm dd i1 i2 h1 h2 addRec3 modRec3 _ _ blocks3a blocks3b hDa hDb)
  · exact pair_mods_perm dd i1 i2 h1 h2 addRec3 modRec3 _ _ blocks3a blocks3b hDa hDb

/-- C8 (counterexample): for the same inputs, two admissible
intersection orders — both realizable, since CPython's set iteration
order depends on the per-process string hash seed — produce different
outputs (the two modification records appear in opposite orders), so
the record order is not a function of the inputs alone. -/
theorem analyze_schema_order_cex :
    InterAdmissible interCanonical ∧ InterAdmissible interReversed ∧
    analyze_settings_schema ddStructural interCanonical
        [secAInput 1, secBInput 1] [secAInput 2, secBInput 2] [] ≠
      analyze_settings_schema ddStructural interReversed
        [secAInput 1, secBInput 1] [secAInput 2, secBInput 2] [] := by
  exact ⟨interCanonical_admissible, interReversed_admissible, by decide⟩

/-- C8 witness: at the concrete input the two runs' modification lists
are permutations of each other. -/
theorem analyze_schema_order_perm_witness :
    InterAdmissible interCanonical ∧ InterAdmissible interReversed ∧
    ((analyze_settings_schema ddStructural interCanonical
        [secAInput 1, secBInput 1] [secAInput 2, secBInput 2] []).getD
        default).v10_upstream_vs_v10_custom.modifications.Perm
      ((analyze_settings_schema ddStructural interReversed
        [secAInput 1, secBInput 1] [secAInput 2, secBInput 2] []).getD
        default).v10_upstream_vs_v10_custom.modifications := by
  refine ⟨interCanonical_admissible, interReversed_admissible, ?_⟩
  exact (analyze_schema_order_perm ddStructural interCanonical interReversed
    interCanonical_admissible interReversed_admissible
    [secAInput 1, secBInput 1] [secAInput 2, secBInput 2] [] _ _ rfl rfl).2.2.1

/-- Keys are unchanged by a per-section transform of a dict's values. -/
theorem jkeys_mapValues (t : JObj → JObj) (m : JMap) :
    jkeys (mapValues t m) = jkeys m := by
  unfold jkeys mapValues
  rw [List.map_map]
  rfl

/-- Membership is unchanged by a per-section transform. -/
theorem jmem_mapValues (t : JObj → JObj) (k : Json) (m : JMap) :
    jmem k (mapValues t m) = jmem k m := by
  unfold jmem mapValues
  rw [List.any_map]
  rfl

/-- `find?` through a per-section transform. -/
theorem find?_mapValues (t : JObj → JObj) (k : Json) (m : JMap) :
    (mapValues t m).find? (fun q => q.1 == k) =
      (m.find? fun q => q.1 == k).map fun q => (q.1, t q.2) := by
  unfold mapValues
  rw [List.find?_map]
  rfl

/-- `jview` through a per-section transform that fixes the empty
object. -/
theorem jview_mapValues (t : JObj → JObj) (ht : t [] = []) (k : Json) (m : JMap) :
    jview (mapValues t m) k = t (jview m k) := by
  unfold jview
  rw [find?_mapValues]
  cases m.find? fun q => q.1 == k with
  | none => simpa using ht.symm
  | some q => rfl

/-- `dict` assignment commutes with a per-section transform. -/
theorem jinsertMap_mapValues (t : JObj → JObj) (m : JMap) (k : Json) (v : JObj) :
    jinsertMap (mapValues t m) k (t v) = mapValues t (jinsertMap m k v) := by
  unfold jinsertMap
  rw [jmem_mapValues]
  by_cases hm : jmem k m
  · rw [if_pos hm, if_pos hm]
    unfold mapValues
    rw [List.map_map, List.map_map]
    apply List.map_congr_left
    intro q _
    by_cases hq : q.1 == k
    · simp [Function.comp, hq]
    · simp [Function.comp, hq]
  · rw [if_neg hm, if_neg hm]
    unfold mapValues
    rw [List.map_append]
    rfl

/-- Lookup through a key-preserving value transform of an object. -/
theorem lookup_map_valueTransform (sec : JObj) (f : String → Json → Json)
    (k : String) :
    (sec.map fun q => (q.1, f q.1 q.2)).lookup k = (sec.lookup k).map (f k) := by
  induction sec with
  | nil => rfl
  | cons q t ih =>
    obtain ⟨k2, v2⟩ := q
    simp only [List.map_cons, List.lookup]
    by_cases h : k == k2
    · have hk : k = k2 := beq_iff_eq.mp h
      subst hk
      simp [h]
    · simp [h, ih]

/-- `dropIdlessSec` as a key-preserving value transform. -/
theorem dropIdlessSec_eq (sec : JObj) :
    dropIdlessSec sec =
      sec.map fun q =>
        (q.1, if q.1 == "settings" then dropIdlessVal q.2 else q.2) := by
  unfold dropIdlessSec
  apply List.map_congr_left
  intro q _
  by_cases h : q.1 == "settings"
  · have : q.1 = "settings" := beq_iff_eq.mp h
    simp [h, this]
  · simp [h]

/-- `dropIdlessSec` leaves every key other than `settings` alone. -/
theorem lookup_dropIdlessSec_ne (sec : JObj) (k : String)
    (hk : (k == "settings") = false) :
    (dropIdlessSec sec).lookup k = sec.lookup k := by
  rw [dropIdlessSec_eq, lookup_map_valueTransform sec
    (fun k2 v => if k2 == "settings" then dropIdlessVal v else v) k]
  cases sec.lookup k with
  | none => rfl
  | some v => simp [hk]

/-- `dropIdlessSec` rewrites the `settings` value. -/
theorem lookup_dropIdlessSec_settings (sec : JObj) :
    (dropIdlessSec sec).lookup "settings" =
      (sec.lookup "settings").map dropIdlessVal := by
  rw [dropIdlessSec_eq, lookup_map_valueTransform sec
    (fun k2 v => if k2 == "settings" then dropIdlessVal v else v) "settings"]
  cases sec.lookup "settings" with
  | none => rfl
  | some v => simp

/-- Round trip between list representations of JSON arrays. -/
theorem toList_ofList (xs : List Json) : (JsonList.ofList xs).toList = xs := by
  induction xs with
  | nil => rfl
  | cons x t ih => simp [JsonList.ofList, JsonList.toList, ih]

/-- Iterating a settings value after deleting id-less entries yields the
filtered entry list, with unchanged crash behaviour. -/
theorem optionMapM_keepSettingElem (xs : List Json) :
    optionMapM (fun j => match j with | Json.obj f => some f.toList | _ => none)
        (xs.filter keepSettingElem) =
      (optionMapM (fun j => match j with | Json.obj f => some f.toList | _ => none)
        xs).map entriesKeep := by
  induction xs with
  | nil => rfl
  | cons j rest ih =>
    cases j with
    | obj f =>
      by_cases hb : (pyGet f.toList "id").truthy
      · have hkeep : keepSettingElem (Json.obj f) = true := by
          simp [keepSettingElem, hb]
        rw [List.filter_cons, if_pos hkeep]
        unfold optionMapM
        rw [ih]
        cases optionMapM (fun j => match j with | Json.obj f => some f.toList | _ => none) rest with
        | none => rfl
        | some ys => simp [entriesKeep, List.filter_cons, hb]
      · have hkeep : keepSettingElem (Json.obj f) = false := by
          simp [keepSettingElem]
          exact Bool.not_eq_true _ ▸ (by simpa using hb)
        rw [List.filter_cons, if_neg (by simp [hkeep])]
        rw [ih]
        conv_rhs => unfold optionMapM
        cases optionMapM (fun j => match j with | Json.obj f => some f.toList | _ => none) rest with
        | none => rfl
        | some ys =>
          simp [entriesKeep, List.filter_cons, hb]
    | null =>
      rw [List.filter_cons, if_pos (by rfl)]
      unfold optionMapM
      rfl
    | bool b =>
      rw [List.filter_cons, if_pos (by rfl)]
      unfold optionMapM
      rfl
    | num n =>
      rw [List.filter_cons, if_pos (by rfl)]
      unfold optionMapM
      rfl
    | str s =>
      rw [List.filter_cons, if_pos (by rfl)]
      unfold optionMapM
      rfl
    | arr l =>
      rw [List.filter_cons, if_pos (by rfl)]
      unfold optionMapM
      rfl

/-- Deleting id-less entries inside a settings value commutes with the
dict iteration. -/
theorem pyIterDicts_dropIdlessVal (v : Json) :
    pyIterDicts (dropIdlessVal v) = (pyIterDicts v).map entriesKeep := by
  cases v with
  | arr l =>
    show pyIterDicts (Json.arr (JsonList.ofList (l.toList.filter keepSettingElem))) = _
    simp only [pyIterDicts]
    rw [toList_ofList]
    exact optionMapM_keepSettingElem l.toList
  | str s =>
    cases hs : s.isEmpty <;> simp [dropIdlessVal, pyIterDicts, hs, entriesKeep]
  | obj f =>
    cases f <;> simp [dropIdlessVal, pyIterDicts, entriesKeep]
  | null => rfl
  | bool b => rfl
  | num n => rfl

/-- The settings iteration of a section after deleting id-less
entries. -/
theorem getSettings_dropIdlessSec (sec : JObj) :
    getSettings (dropIdlessSec sec) = (getSettings sec).map entriesKeep := by
  unfold getSettings
  rw [lookup_dropIdlessSec_settings]
  cases sec.lookup "settings" with
  | none => rfl
  | some v =>
    simp only [Option.map_some]
    exact pyIterDicts_dropIdlessVal v

/-- The id-keyed map ignores deleted id-less entries. -/
theorem buildIdMapAux_entriesKeep (ss : List JObj) :
    ∀ acc, buildIdMapAux (entriesKeep ss) acc = buildIdMapAux ss acc := by
  induction ss with
  | nil => intro acc; rfl
  | cons s rest ih =>
    intro acc
    unfold entriesKeep
    rw [List.filter_cons]
    by_cases hb : (pyGet s "id").truthy
    · rw [if_pos (by simpa using hb)]
      conv_rhs => unfold buildIdMapAux
      rw [if_pos hb]
      by_cases hh : (pyGet s "id").hashable
      · rw [if_pos hh]
        conv_lhs => unfold buildIdMapAux
        rw [if_pos hb, if_pos hh]
        exact ih _
      · rw [if_neg hh]
        conv_lhs => unfold buildIdMapAux
        rw [if_pos hb, if_neg hh]
    · rw [if_neg (by simpa using hb)]
      conv_rhs => unfold buildIdMapAux
      rw [if_neg hb]
      exact ih _

/-- A filterMap that drops id-less entries anyway is unchanged by
deleting them first. -/
theorem filterMap_entriesKeep (f : JObj → Option JObj)
    (hf : ∀ s, (pyGet s "id").truthy = false → f s = none) (ss : List JObj) :
    (entriesKeep ss).filterMap f = ss.filterMap f := by
  induction ss with
  | nil => rfl
  | cons s rest ih =>
    unfold entriesKeep
    rw [List.filter_cons]
    by_cases hb : (pyGet s "id").truthy
    · rw [if_pos (by simpa using hb)]
      rw [List.filterMap_cons, List.filterMap_cons]
      unfold entriesKeep at ih
      cases f s <;> simp [ih]
    · rw [if_neg (by simpa using hb)]
      rw [List.filterMap_cons, hf s (by simpa using hb)]
      exact ih

/-- `explicitNameSec` leaves every key other than `name` alone. -/
theorem lookup_explicitNameSec_ne (sec : JObj) (k : String)
    (hk : (k == "name") = false) :
    (explicitNameSec sec).lookup k = sec.lookup k := by
  unfold explicitNameSec
  by_cases hp : (sec.lookup "name").isSome
  · rw [if_pos hp]
  · rw [if_neg hp, List.lookup_append]
    have h2 : List.lookup k [("name", Json.null)] = none := by
      simp [List.lookup, hk]
    rw [h2]
    cases sec.lookup k <;> rfl

/-- `explicitNameSec` preserves what `get('name')` returns: a missing
name and an explicit `null` read back identically. -/
theorem pyGet_explicitNameSec_name (sec : JObj) :
    pyGet (explicitNameSec sec) "name" = pyGet sec "name" := by
  unfold explicitNameSec pyGet
  by_cases hp : (sec.lookup "name").isSome
  · rw [if_pos hp]
  · rw [if_neg hp, List.lookup_append]
    cases hn : sec.lookup "name" with
    | some v => rw [hn] at hp; simp at hp
    | none => simp [List.lookup]

/-- `explicitNameSec` preserves `get('theme_version')`. -/
theorem pyGet_explicitNameSec_ver (sec : JObj) :
    pyGet (explicitNameSec sec) "theme_version" = pyGet sec "theme_version" := by
  unfold pyGet
  rw [lookup_explicitNameSec_ne sec "theme_version" (by decide)]

/-- `explicitNameSec` does not change the settings iteration. -/
theorem getSettings_explicitNameSec (sec : JObj) :
    getSettings (explicitNameSec sec) = getSettings sec := by
  unfold getSettings
  rw [lookup_explicitNameSec_ne sec "settings" (by decide)]

/-- `dropIdlessSec` preserves `get('name')`. -/
theorem pyGet_dropIdlessSec_name (sec : JObj) :
    pyGet (dropIdlessSec sec) "name" = pyGet sec "name" := by
  unfold pyGet
  rw [lookup_dropIdlessSec_ne sec "name" (by decide)]

/-- `dropIdlessSec` preserves `get('theme_version')`. -/
theorem pyGet_dropIdlessSec_ver (sec : JObj) :
    pyGet (dropIdlessSec sec) "theme_version" = pyGet sec "theme_version" := by
  unfold pyGet
  rw [lookup_dropIdlessSec_ne sec "theme_version" (by decide)]

/-- Building the section map commutes with a name-preserving
per-section transform. -/
theorem buildSectionMapAux_mapValues (t : JObj → JObj)
    (hname : ∀ sec, pyGet (t sec) "name" = pyGet sec "name")
    (items : List JObj) :
    ∀ acc, buildSectionMapAux (items.map t) (mapValues t acc) =
      (buildSectionMapAux items acc).map (mapValues t) := by
  induction items with
  | nil => intro acc; rfl
  | cons it rest ih =>
    intro acc
    rw [List.map_cons]
    unfold buildSectionMapAux
    rw [hname it]
    by_cases hti : (pyGet it "name" == Json.str "theme_info") = true
    · rw [if_pos hti, if_pos hti]
      exact ih acc
    · rw [if_neg hti, if_neg hti]
      by_cases hh : (pyGet it "name").hashable = true
      · rw [if_pos hh, if_pos hh, jinsertMap_mapValues]
        exact ih _
      · rw [if_neg hh, if_neg hh]
        rfl

/-- The settings iteration of a (possibly absent) section of a
transformed map. -/
theorem getSettings_jview_mapValues (t : JObj → JObj) (g : List JObj → List JObj)
    (hsettings : ∀ sec, getSettings (t sec) = (getSettings sec).map g)
    (hgnil : g [] = []) (m : JMap) (n : Json) :
    getSettings (jview (mapValues t m) n) = (getSettings (jview m n)).map g := by
  unfold jview
  rw [find?_mapValues]
  cases m.find? fun q => q.1 == n with
  | none => simp [getSettings, List.lookup, hgnil]
  | some q => exact hsettings q.2

/-- The id maps of a common section are unchanged by the transform. -/
theorem sectionMapsOf_mapValues (t : JObj → JObj) (g : List JObj → List JObj)
    (hsettings : ∀ sec, getSettings (t sec) = (getSettings sec).map g)
    (hgnil : g [] = [])
    (hid : ∀ ss acc, buildIdMapAux (g ss) acc = buildIdMapAux ss acc)
    (b c : JMap) (n : Json) :
    sectionMapsOf (mapValues t b) (mapValues t c) n = sectionMapsOf b c n := by
  unfold sectionMapsOf
  rw [getSettings_jview_mapValues t g hsettings hgnil b n,
    getSettings_jview_mapValues t g hsettings hgnil c n]
  cases getSettings (jview b n) with
  | none => rfl
  | some bs =>
    simp only [Option.map_some]
    cases getSettings (jview c n) with
    | none => rfl
    | some cs =>
      simp only [Option.map_some]
      show (match buildIdMap (g bs) with
        | none => none
        | some baseIds =>
          match buildIdMap (g cs) with
          | none => none
          | some compIds => some (baseIds, compIds)) = _
      unfold buildIdMap
      rw [hid bs [], hid cs []]

/-- A common-section block is unchanged by the transform. -/
theorem commonBlock_mapValues (t : JObj → JObj) (g : List JObj → List JObj)
    (hsettings : ∀ sec, getSettings (t sec) = (getSettings sec).map g)
    (hgnil : g [] = [])
    (hid : ∀ ss acc, buildIdMapAux (g ss) acc = buildIdMapAux ss acc)
    (dd : DeepDiffFn) (inter : InterFn)
    (mkAdd : Json → Json → JObj → JObj) (mkMod : Json → Json → JObj → String → JObj)
    (b c : JMap) (n : Json) :
    commonBlock dd inter mkAdd mkMod (mapValues t b) (mapValues t c) n =
      commonBlock dd inter mkAdd mkMod b c n := by
  unfold commonBlock
  rw [sectionMapsOf_mapValues t g hsettings hgnil hid b c n]

/-- The per-entry additions of a brand-new section are unchanged by the
transform. -/
theorem newSectionEntries1_mapValues (t : JObj → JObj) (g : List JObj → List JObj)
    (hsettings : ∀ sec, getSettings (t sec) = (getSettings sec).map g)
    (hgnil : g [] = [])
    (hfm : ∀ f : JObj → Option JObj,
      (∀ s, (pyGet s "id").truthy = false → f s = none) →
      ∀ ss, (g ss).filterMap f = ss.filterMap f)
    (m : JMap) (n : Json) :
    newSectionEntries1 (mapValues t m) n = newSectionEntries1 m n := by
  unfold newSectionEntries1
  rw [getSettings_jview_mapValues t g hsettings hgnil m n]
  cases getSettings (jview m n) with
  | none => rfl
  | some ss =>
    show some ((g ss).filterMap fun s =>
        if (pyGet s "id").truthy = true then some (addRec1 n (pyGet s "id") s) else none) = _
    rw [hfm (fun s =>
        if (pyGet s "id").truthy = true then some (addRec1 n (pyGet s "id") s) else none)
      (fun s h => by
        show (if (pyGet s "id").truthy = true
          then some (addRec1 n (pyGet s "id") s) else none) = none
        rw [h]; rfl) ss]

/-- The found `theme_info` version is unchanged by the transform. -/
theorem themeInfo_ver_mapT (t : JObj → JObj)
    (hname : ∀ sec, pyGet (t sec) "name" = pyGet sec "name")
    (hver : ∀ sec, pyGet (t sec) "theme_version" = pyGet sec "theme_version")
    (items : List JObj) :
    pyGet (((items.map t).find? fun it =>
        pyGet it "name" == Json.str "theme_info").getD []) "theme_version" =
      pyGet ((items.find? fun it =>
        pyGet it "name" == Json.str "theme_info").getD []) "theme_version" := by
  rw [List.find?_map]
  have hpred : ((fun it => pyGet it "name" == Json.str "theme_info") ∘ t) =
      fun it => pyGet it "name" == Json.str "theme_info" :=
    funext fun it => by simp [Function.comp, hname it]
  rw [hpred]
  cases items.find? fun it => pyGet it "name" == Json.str "theme_info" with
  | none => rfl
  | some it => exact hver it

/-- The theme-info change records depend only on the
`theme_version` values. -/
theorem themeInfoChanges_congr (a1 a2 b1 b2 c1 c2 : JObj)
    (ha : pyGet a1 "theme_version" = pyGet a2 "theme_version")
    (hb : pyGet b1 "theme_version" = pyGet b2 "theme_version")
    (hc : pyGet c1 "theme_version" = pyGet c2 "theme_version") :
    themeInfoChanges a1 b1 c1 = themeInfoChanges a2 b2 c2 := by
  unfold themeInfoChanges
  rw [ha, hb, hc]

/-- Construction of a successful run of the schema comparator from its
stage equations. -/
theorem analyze_schema_construction (dd : DeepDiffFn) (inter : InterFn)
    (v10 cur v15 : List JObj) (mv10 mcur mv15 : JMap)
    (newAdds1 : List (List JObj)) (blocks1 blocks2 blocks3 : List (List JObj × List JObj))
    (h10 : buildSectionMap v10 = some mv10)
    (hcur : buildSectionMap cur = some mcur)
    (h15 : buildSectionMap v15 = some mv15)
    (hA : optionMapM (newSectionEntries1 mcur)
      ((jkeys mcur).filter fun n => !jmem n mv10) = some newAdds1)
    (hB : optionMapM (commonBlock dd inter addRec1 modRec1 mv10 mcur)
      (inter (jkeys mv10) (jkeys mcur)) = some blocks1)
    (hC : optionMapM (commonBlock dd inter addRec2 modRec2 mv10 mv15)
      (inter (jkeys mv10) (jkeys mv15)) = some blocks2)
    (hD : optionMapM (commonBlock dd inter addRec3 modRec3 mcur mv15)
      (inter (jkeys mcur) (jkeys mv15)) = some blocks3) :
    analyze_settings_schema dd inter v10 cur v15 =
      some
        { v10_upstream_vs_v10_custom :=
          { custom_additions := newAdds1.flatten ++ (blocks1.map Prod.fst).flatten
            modifications := (blocks1.map Prod.snd).flatten
            removals := []
            custom_sections :=
              ((jkeys mcur).filter fun n => !jmem n mv10).map secRec1 }
          v10_upstream_vs_v15_upstream :=
          { dawn_additions :=
              ((jkeys mv15).filter fun n => !jmem n mv10).map secRec2 ++
                (blocks2.map Prod.fst).flatten
            dawn_modifications := (blocks2.map Prod.snd).flatten
            dawn_removals := [] }
          v10_custom_vs_v15_upstream :=
          { conflict_additions :=
              ((jkeys mv15).filter fun n => !jmem n mcur).map secRec3 ++
                (blocks3.map Prod.fst).flatten
            conflict_modifications := (blocks3.map Prod.snd).flatten
            conflict_removals := [] }
          theme_info_changes := themeInfoChanges
            ((v10.find? fun it => pyGet it "name" == Json.str "theme_info").getD [])
            ((cur.find? fun it => pyGet it "name" == Json.str "theme_info").getD [])
            ((v15.find? fun it => pyGet it "name" == Json.str "theme_info").getD []) } := by
  unfold analyze_settings_schema
  simp only [h10, hcur, h15, hA, hB, hC, hD]

/-- Master congruence: a per-section transform that preserves `name` and
`theme_version` reads and rewrites each settings list by a map-builder-
and filterMap-invariant list transform leaves the whole schema analysis
unchanged, crash behaviour included. -/
theorem analyze_schema_congr (t : JObj → JObj) (g : List JObj → List JObj)
    (hname : ∀ sec, pyGet (t sec) "name" = pyGet sec "name")
    (hver : ∀ sec, pyGet (t sec) "theme_version" = pyGet sec "theme_version")
    (hsettings : ∀ sec, getSettings (t sec) = (getSettings sec).map g)
    (hgnil : g [] = [])
    (hid : ∀ ss acc, buildIdMapAux (g ss) acc = buildIdMapAux ss acc)
    (hfm : ∀ f : JObj → Option JObj,
      (∀ s, (pyGet s "id").truthy = false → f s = none) →
      ∀ ss, (g ss).filterMap f = ss.filterMap f)
    (dd : DeepDiffFn) (inter : InterFn) (a b c : List JObj) :
    analyze_settings_schema dd inter (a.map t) (b.map t) (c.map t) =
      analyze_settings_schema dd inter a b c := by
  have hbs : ∀ items : List JObj,
      buildSectionMap (items.map t) = (buildSectionMap items).map (mapValues t) :=
    fun items => buildSectionMapAux_mapValues t hname items []
  have hnew : ∀ m : JMap, newSectionEntries1 (mapValues t m) = newSectionEntries1 m :=
    fun m => funext fun n => newSectionEntries1_mapValues t g hsettings hgnil hfm m n
  have hcb : ∀ (mkAdd : Json → Json → JObj → JObj)
      (mkMod : Json → Json → JObj → String → JObj) (bm cm : JMap),
      commonBlock dd inter mkAdd mkMod (mapValues t bm) (mapValues t cm) =
        commonBlock dd inter mkAdd mkMod bm cm :=
    fun mkAdd mkMod bm cm => funext fun n =>
      commonBlock_mapValues t g hsettings hgnil hid dd inter mkAdd mkMod bm cm n
  have hti : themeInfoChanges
      (((a.map t).find? fun it => pyGet it "name" == Json.str "theme_info").getD [])
      (((b.map t).find? fun it => pyGet it "name" == Json.str "theme_info").getD [])
      (((c.map t).find? fun it => pyGet it "name" == Json.str "theme_info").getD []) =
    themeInfoChanges
      ((a.find? fun it => pyGet it "name" == Json.str "theme_info").getD [])
      ((b.find? fun it => pyGet it "name" == Json.str "theme_info").getD [])
      ((c.find? fun it => pyGet it "name" == Json.str "theme_info").getD []) :=
    themeInfoChanges_congr _ _ _ _ _ _
      (themeInfo_ver_mapT t hname hver a) (themeInfo_ver_mapT t hname hver b)
      (themeInfo_ver_mapT t hname hver c)
  cases hr : analyze_settings_schema dd inter a b c with
  | some r =>
    obtain ⟨mv10, mcur, mv15, newAdds1, blocks1, blocks2, blocks3,
        h10, hcurE, h15, hA, hB, hC, hD, hrEq⟩ :=
      analyze_schema_inversion dd inter a b c r hr
    have h10x : buildSectionMap (a.map t) = some (mapValues t mv10) := by
      rw [hbs a, h10]; rfl
    have hcurx : buildSectionMap (b.map t) = some (mapValues t mcur) := by
      rw [hbs b, hcurE]; rfl
    have h15x : buildSectionMap (c.map t) = some (mapValues t mv15) := by
      rw [hbs c, h15]; rfl
    have hAx : optionMapM (newSectionEntries1 (mapValues t mcur))
        ((jkeys (mapValues t mcur)).filter fun n => !jmem n (mapValues t mv10)) =
          some newAdds1 := by
      rw [hnew mcur, jkeys_mapValues]
      have hflt : ((jkeys mcur).filter fun n => !jmem n (mapValues t mv10)) =
          (jkeys mcur).filter fun n => !jmem n mv10 := by
        simp only [jmem_mapValues]
      rw [hflt]; exact hA
    have hBx : optionMapM
        (commonBlock dd inter addRec1 modRec1 (mapValues t mv10) (mapValues t mcur))
        (inter (jkeys (mapValues t mv10)) (jkeys (mapValues t mcur))) = some blocks1 := by
      rw [hcb addRec1 modRec1 mv10 mcur, jkeys_mapValues, jkeys_mapValues]; exact hB
    have hCx : optionMapM
        (commonBlock dd inter addRec2 modRec2 (mapValues t mv10) (mapValues t mv15))
        (inter (jkeys (mapValues t mv10)) (jkeys (mapValues t mv15))) = some blocks2 := by
      rw [hcb addRec2 modRec2 mv10 mv15, jkeys_mapValues, jkeys_mapValues]; exact hC
    have hDx : optionMapM
        (commonBlock dd inter addRec3 modRec3 (mapValues t mcur) (mapValues t mv15))
        (inter (jkeys (mapValues t mcur)) (jkeys (mapValues t mv15))) = some blocks3 := by
      rw [hcb addRec3 modRec3 mcur mv15, jkeys_mapValues, jkeys_mapValues]; exact hD
    rw [analyze_schema_construction dd inter (a.map t) (b.map t) (c.map t)
      (mapValues t mv10) (mapValues t mcur) (mapValues t mv15)
      newAdds1 blocks1 blocks2 blocks3 h10x hcurx h15x hAx hBx hCx hDx]
    rw [hrEq]
    simp only [jkeys_mapValues, jmem_mapValues, hti]
  | none =>
    cases hr2 : analyze_settings_schema dd inter (a.map t) (b.map t) (c.map t) with
    | none => rfl
    | some r2 =>
      exfalso
      obtain ⟨m10n, mcn, m15n, nAn, b1n, b2n, b3n,
          h10n, hcn, h15n, hAn, hBn, hCn, hDn, hrn⟩ :=
        analyze_schema_inversion dd inter _ _ _ r2 hr2
      rw [hbs a] at h10n
      rw [hbs b] at hcn
      rw [hbs c] at h15n
      obtain ⟨ma, hma, hmaEq⟩ := Option.map_eq_some'.mp h10n
      obtain ⟨mb, hmb, hmbEq⟩ := Option.map_eq_some'.mp hcn
      obtain ⟨mc, hmc, hmcEq⟩ := Option.map_eq_some'.mp h15n
      subst hmaEq; subst hmbEq; subst hmcEq
      rw [hnew mb, jkeys_mapValues] at hAn
      have hflt : ((jkeys mb).filter fun n => !jmem n (mapValues t ma)) =
          (jkeys mb).filter fun n => !jmem n ma := by
        simp only [jmem_mapValues]
      rw [hflt] at hAn
      rw [hcb addRec1 modRec1 ma mb, jkeys_mapValues, jkeys_mapValues] at hBn
      rw [hcb addRec2 modRec2 ma mc, jkeys_mapValues, jkeys_mapValues] at hCn
      rw [hcb addRec3 modRec3 mb mc, jkeys_mapValues, jkeys_mapValues] at hDn
      have hsome := analyze_schema_construction dd inter a b c ma mb mc
        nAn b1n b2n b3n hma hmb hmc hAn hBn hCn hDn
      rw [hr] at hsome
      exact Option.noConfusion hsome

/-- Every value of a dict after assignment is the assigned value or one
of the old entries. -/
theorem jinsertMap_values (m : JMap) (k : Json) (v : JObj) :
    ∀ q ∈ jinsertMap m k v, q.2 = v ∨ q ∈ m := by
  intro q hq
  unfold jinsertMap at hq
  split at hq
  · obtain ⟨q0, hq0, hmap⟩ := List.mem_map.mp hq
    by_cases h : q0.1 == k
    · left; simp only [h, if_true] at hmap; rw [← hmap]
    · right; simp only [h, if_false] at hmap; exact hmap ▸ hq0
  · rcases List.mem_append.mp hq with h | h
    · right; exact h
    · left
      have : q = (k, v) := by simpa using h
      rw [this]

/-- The empty object is a processable section. -/
theorem sectionWF_nil : sectionWF [] = true := by decide

/-- Indexing a dict of processable sections yields a processable
section. -/
theorem viewWF (m : JMap) (hm : ∀ q ∈ m, sectionWF q.2 = true) (n : Json) :
    sectionWF (jview m n) = true := by
  unfold jview
  cases hf : m.find? fun q => q.1 == n with
  | none => exact sectionWF_nil
  | some q => exact hm q (List.mem_of_find?_eq_some hf)

/-- The section-map comprehension succeeds on processable sections and
stores only processable sections. -/
theorem buildSectionMapAux_total (items : List JObj)
    (hw : items.all sectionWF = true) :
    ∀ acc, (∀ q ∈ acc, sectionWF q.2 = true) →
      ∃ m, buildSectionMapAux items acc = some m ∧
        ∀ q ∈ m, sectionWF q.2 = true := by
  induction items with
  | nil => intro acc hacc; exact ⟨acc, rfl, hacc⟩
  | cons it rest ih =>
    intro acc hacc
    have hitWF : sectionWF it = true :=
      List.all_eq_true.mp hw it (List.mem_cons_self _ _)
    have hrest : rest.all sectionWF = true := by
      rw [List.all_eq_true] at hw ⊢
      exact fun x hx => hw x (List.mem_cons_of_mem _ hx)
    have hname : (pyGet it "name").hashable = true := by
      unfold sectionWF at hitWF
      rw [Bool.and_eq_true] at hitWF
      exact hitWF.1
    unfold buildSectionMapAux
    by_cases hti : (pyGet it "name" == Json.str "theme_info") = true
    · rw [if_pos hti]; exact ih hrest acc hacc
    · rw [if_neg hti, if_pos hname]
      refine ih hrest _ ?_
      intro q hq
      rcases jinsertMap_values acc (pyGet it "name") it q hq with h | h
      · rw [h]; exact hitWF
      · exact hacc q h

/-- A processable section has an iterable settings list of processable
entries. -/
theorem sectionWF_getSettings (sec : JObj) (h : sectionWF sec = true) :
    ∃ ss, getSettings sec = some ss ∧ ss.all entryWF = true := by
  unfold sectionWF at h
  rw [Bool.and_eq_true] at h
  have h2 := h.2
  cases hg : getSettings sec with
  | none => simp only [hg] at h2; exact Bool.noConfusion h2
  | some ss => simp only [hg] at h2; exact ⟨ss, rfl, h2⟩

/-- The id-map comprehension succeeds on processable entries. -/
theorem buildIdMapAux_total (ss : List JObj) (h : ss.all entryWF = true) :
    ∀ acc, (buildIdMapAux ss acc).isSome = true := by
  induction ss with
  | nil => intro acc; rfl
  | cons s rest ih =>
    intro acc
    have hs : entryWF s = true := List.all_eq_true.mp h s (List.mem_cons_self _ _)
    have hrest : rest.all entryWF = true := by
      rw [List.all_eq_true] at h ⊢
      exact fun x hx => h x (List.mem_cons_of_mem _ hx)
    unfold buildIdMapAux
    by_cases hb : (pyGet s "id").truthy = true
    · rw [if_pos hb]
      have hh : (pyGet s "id").hashable = true := by
        unfold entryWF at hs
        rw [Bool.or_eq_true] at hs
        rcases hs with h1 | h1
        · simp [hb] at h1
        · exact h1
      rw [if_pos hh]; exact ih hrest _
    · rw [if_neg hb]; exact ih hrest _

/-- Both id maps of a common section succeed on processable section
dicts. -/
theorem sectionMapsOf_total (b c : JMap)
    (hb : ∀ q ∈ b, sectionWF q.2 = true) (hc : ∀ q ∈ c, sectionWF q.2 = true)
    (n : Json) : (sectionMapsOf b c n).isSome = true := by
  unfold sectionMapsOf
  obtain ⟨bs, hbs2, hbsWF⟩ := sectionWF_getSettings _ (viewWF b hb n)
  obtain ⟨cs, hcs2, hcsWF⟩ := sectionWF_getSettings _ (viewWF c hc n)
  rw [hbs2, hcs2]
  have hbm : (buildIdMap bs).isSome = true := buildIdMapAux_total bs hbsWF []
  obtain ⟨bi, hbi⟩ := Option.isSome_iff_exists.mp hbm
  have hcm : (buildIdMap cs).isSome = true := buildIdMapAux_total cs hcsWF []
  obtain ⟨ci, hci⟩ := Option.isSome_iff_exists.mp hcm
  simp only [hbi, hci]
  rfl

/-- The new-section entries loop of comparison 1 succeeds on processable
section dicts. -/
theorem newSectionEntries1_total (m : JMap)
    (hm : ∀ q ∈ m, sectionWF q.2 = true) (n : Json) :
    (newSectionEntries1 m n).isSome = true := by
  unfold newSectionEntries1
  obtain ⟨ss, hss, h2⟩ := sectionWF_getSettings _ (viewWF m hm n)
  rw [hss]
  rfl

/-- A common-section block succeeds on processable section dicts. -/
theorem commonBlock_total (dd : DeepDiffFn) (inter : InterFn)
    (mkAdd : Json → Json → JObj → JObj)
    (mkMod : Json → Json → JObj → String → JObj) (b c : JMap)
    (hb : ∀ q ∈ b, sectionWF q.2 = true) (hc : ∀ q ∈ c, sectionWF q.2 = true)
    (n : Json) : (commonBlock dd inter mkAdd mkMod b c n).isSome = true := by
  unfold commonBlock
  obtain ⟨p, hp⟩ := Option.isSome_iff_exists.mp (sectionMapsOf_total b c hb hc n)
  obtain ⟨bi, ci⟩ := p
  rw [hp]
  rfl

/-- The schema comparator never fails on well-formed snapshots. -/
theorem analyze_schema_total (dd : DeepDiffFn) (inter : InterFn)
    (a b c : List JObj)
    (ha : schemaWF a = true) (hb : schemaWF b = true) (hc : schemaWF c = true) :
    (analyze_settings_schema dd inter a b c).isSome = true := by
  obtain ⟨ma, hma, hmaWF⟩ :=
    buildSectionMapAux_total a ha [] (fun q hq => absurd hq (List.not_mem_nil q))
  obtain ⟨mb, hmb, hmbWF⟩ :=
    buildSectionMapAux_total b hb [] (fun q hq => absurd hq (List.not_mem_nil q))
  obtain ⟨mc2, hmc, hmcWF⟩ :=
    buildSectionMapAux_total c hc [] (fun q hq => absurd hq (List.not_mem_nil q))
  have hA := optionMapM_isSome (newSectionEntries1 mb)
    ((jkeys mb).filter fun n => !jmem n ma)
    (fun n _ => newSectionEntries1_total mb hmbWF n)
  obtain ⟨nA, hAeq⟩ := Option.isSome_iff_exists.mp hA
  have hB := optionMapM_isSome (commonBlock dd inter addRec1 modRec1 ma mb)
    (inter (jkeys ma) (jkeys mb))
    (fun n _ => commonBlock_total dd inter addRec1 modRec1 ma mb hmaWF hmbWF n)
  obtain ⟨b1, hBeq⟩ := Option.isSome_iff_exists.mp hB
  have hC := optionMapM_isSome (commonBlock dd inter addRec2 modRec2 ma mc2)
    (inter (jkeys ma) (jkeys mc2))
    (fun n _ => commonBlock_total dd inter addRec2 modRec2 ma mc2 hmaWF hmcWF n)
  obtain ⟨b2, hCeq⟩ := Option.isSome_iff_exists.mp hC
  have hD := optionMapM_isSome (commonBlock dd inter addRec3 modRec3 mb mc2)
    (inter (jkeys mb) (jkeys mc2))
    (fun n _ => commonBlock_total dd inter addRec3 modRec3 mb mc2 hmbWF hmcWF n)
  obtain ⟨b3, hDeq⟩ := Option.isSome_iff_exists.mp hD
  rw [analyze_schema_construction dd inter a b c ma mb mc2
    nA b1 b2 b3 hma hmb hmc hAeq hBeq hCeq hDeq]
  rfl

/-- C6 counterexample: the schema comparator is not total — a section
whose `settings` value is a number crashes the run (a `TypeError` in
Python, `none` here) — and a section lacking a `name` field is not
silently skipped: it produces both a whole-section record and a
per-entry addition record. -/
theorem analyze_schema_edge_cex :
    analyze_settings_schema ddStructural interCanonical
      [] [badSettingsSecInput] [] = none ∧
    (analyze_settings_schema ddStructural interCanonical
        [] [namelessSecInput] []).map
      (fun r => (r.v10_upstream_vs_v10_custom.custom_additions.length,
        r.v10_upstream_vs_v10_custom.custom_sections.length)) = some (1, 1) := by
  exact ⟨rfl, rfl⟩

/-- C6 (amended): on well-formed snapshots — hashable section names,
iterable settings lists whose truthy ids are hashable — the comparator
never crashes; entries lacking a truthy `id` are genuinely skipped, in
that deleting them from every section leaves the output unchanged; and a
section lacking a `name` field is treated exactly like one whose `name`
is an explicit `null`, not skipped. -/
theorem analyze_schema_edge_cases (dd : DeepDiffFn) (inter : InterFn)
    (a b c : List JObj)
    (ha : schemaWF a = true) (hb : schemaWF b = true) (hc : schemaWF c = true) :
    (analyze_settings_schema dd inter a b c).isSome = true ∧
    analyze_settings_schema dd inter (dropIdless a) (dropIdless b) (dropIdless c) =
      analyze_settings_schema dd inter a b c ∧
    analyze_settings_schema dd inter
        (explicitNames a) (explicitNames b) (explicitNames c) =
      analyze_settings_schema dd inter a b c := by
  refine ⟨analyze_schema_total dd inter a b c ha hb hc, ?_, ?_⟩
  · exact analyze_schema_congr dropIdlessSec entriesKeep
      pyGet_dropIdlessSec_name pyGet_dropIdlessSec_ver getSettings_dropIdlessSec
      rfl buildIdMapAux_entriesKeep filterMap_entriesKeep dd inter a b c
  · exact analyze_schema_congr explicitNameSec id
      pyGet_explicitNameSec_name pyGet_explicitNameSec_ver
      (fun sec => by rw [getSettings_explicitNameSec]; cases getSettings sec <;> rfl)
      rfl (fun ss acc => rfl) (fun f hf ss => rfl) dd inter a b c

/-- C6 witness: the amended theorem evaluated at a concrete well-formed
snapshot. -/
theorem analyze_schema_edge_cases_witness :
    schemaWF [newSecInput] = true ∧
    (analyze_settings_schema ddStructural interCanonical
      [newSecInput] [newSecInput] [newSecInput]).isSome = true ∧
    analyze_settings_schema ddStructural interCanonical
        (dropIdless [newSecInput]) (dropIdless [newSecInput])
        (dropIdless [newSecInput]) =
      analyze_settings_schema ddStructural interCanonical
        [newSecInput] [newSecInput] [newSecInput] :=
  ⟨by decide,
   (analyze_schema_edge_cases ddStructural interCanonical
     [newSecInput] [newSecInput] [newSecInput]
     (by decide) (by decide) (by decide)).1,
   (analyze_schema_edge_cases ddStructural interCanonical
     [newSecInput] [newSecInput] [newSecInput]
     (by decide) (by decide) (by decide)).2.1⟩

end DawnUpgrade
